import Mathlib

/-!
# boil: the SDL3 game template (`src/templates/sdl3/main.c`)

A shallow embedding of the game state of the template and proofs about it.

Platform conventions of the embedding (the ones the C source relies on):
* `char` is a signed 8-bit integer, `int` and `unsigned` are 32 bits wide;
  a C value is an `Int`/`Nat` and every store wraps explicitly;
* `unsigned short` is 16 bits and is laid out little-endian, so the
  `SDL_memcpy` of two bytes at `p` yields `p[0] + 256 * p[1]`;
* `GameContext` has only `char` members, hence no padding: the byte that
  follows `cells[125]` is `player_xpos`, then `player_ypos`, then `next_dir`.
  A two-byte window starting at `cells + 125` therefore covers `cells[125]`
  and the byte of `player_xpos`. An access that leaves the 129 bytes of the
  structure has no defined result and is `none` in the embedding.
-/

namespace Boil

/-! ## Configuration constants -/

/-- Source: `#define STEP_RATE_IN_MILLISECONDS 125` -/
def STEP_RATE_IN_MILLISECONDS : Nat := 125

/-- Source: `#define GAME_GRID_WIDTH 24U` -/
def GAME_GRID_WIDTH : Nat := 24

/-- Source: `#define GAME_GRID_HEIGHT 14U` -/
def GAME_GRID_HEIGHT : Nat := 14

/-- Source: `#define GAME_MATRIX_SIZE (GAME_GRID_WIDTH * GAME_GRID_HEIGHT)` -/
def GAME_MATRIX_SIZE : Nat := GAME_GRID_WIDTH * GAME_GRID_HEIGHT

/-- Source: `#define CELL_MAX_BITS 3U` -/
def CELL_MAX_BITS : Nat := 3

/-- Source: `#define THREE_BITS 0x7U` -/
def THREE_BITS : Nat := 7

/-- Length of `cells`: `(GAME_MATRIX_SIZE * CELL_MAX_BITS) / 8U`, which is 126. -/
def CELLS_LEN : Nat := (GAME_MATRIX_SIZE * CELL_MAX_BITS) / 8

/-! ## Machine integers -/

/-- Conversion of an integer to `char` (signed, 8 bits, wrapping). -/
def to_char (n : Int) : Int := (n + 128) % 256 - 128

/-- Conversion of an integer to `unsigned` (32 bits, wrapping). -/
def to_uint (n : Int) : Nat := (n % 4294967296).toNat

/-- Conversion of an `unsigned` value to `int` (32 bits, two's complement). -/
def to_int (n : Nat) : Int :=
  if n % 4294967296 < 2147483648 then ((n % 4294967296 : Nat) : Int)
  else ((n % 4294967296 : Nat) : Int) - 4294967296

/-- Complement `~m` of an `unsigned` value. -/
def bit_not (m : Nat) : Nat := 4294967295 ^^^ (m % 4294967296)

/-- Conversion of a 32-bit value to `unsigned short`. -/
def to_ushort (n : Nat) : Nat := n % 65536

/-- The object representation of a `char`: its byte. -/
def byte_of_char (c : Int) : Fin 256 :=
  ⟨(c % 256).toNat, by omega⟩

/-- The `char` whose object representation is the byte `b`. -/
def char_of_byte (b : Fin 256) : Int :=
  if b.val < 128 then (b.val : Int) else (b.val : Int) - 256

/-- Source: `#define SHIFT(x, y) (((x) + ((y) * GAME_GRID_WIDTH)) * CELL_MAX_BITS)`:
the operands are converted to `unsigned` and the arithmetic is modulo `2^32`. -/
def SHIFT (x y : Int) : Nat :=
  ((to_uint x + (to_uint y * GAME_GRID_WIDTH) % 4294967296) % 4294967296
    * CELL_MAX_BITS) % 4294967296

/-! ## Cell types and directions -/

/-- Source: `CELL_EMPTY = 0U` -/
def CELL_EMPTY : Nat := 0
/-- Source: `CELL_PLAYER = 1U` -/
def CELL_PLAYER : Nat := 1
/-- Source: `CELL_TYPE2 = 2U` -/
def CELL_TYPE2 : Nat := 2
/-- Source: `CELL_TYPE3 = 3U` -/
def CELL_TYPE3 : Nat := 3
/-- Source: `CELL_TYPE4 = 4U` -/
def CELL_TYPE4 : Nat := 4
/-- Source: `CELL_TYPE5 = 5U` -/
def CELL_TYPE5 : Nat := 5

/-- Source: `typedef enum { DIR_RIGHT, DIR_UP, DIR_LEFT, DIR_DOWN } Direction;` -/
inductive Direction where
  | DIR_RIGHT
  | DIR_UP
  | DIR_LEFT
  | DIR_DOWN
  deriving DecidableEq, Repr

/-- The integer value of an enumerator of `Direction`. -/
def Direction.code : Direction → Int
  | .DIR_RIGHT => 0
  | .DIR_UP => 1
  | .DIR_LEFT => 2
  | .DIR_DOWN => 3

/-! ## The game context -/

/-- Source: `typedef struct { unsigned char cells[126]; char player_xpos;
char player_ypos; char next_dir; } GameContext;` -/
structure GameContext where
  cells : Fin 126 → Fin 256
  player_xpos : Int
  player_ypos : Int
  next_dir : Int

/-- The byte at offset `k` from `ctx->cells`, inside the structure. -/
def load_byte (ctx : GameContext) (k : Nat) : Option (Fin 256) :=
  if h : k < 126 then some (ctx.cells ⟨k, h⟩)
  else if k = 126 then some (byte_of_char ctx.player_xpos)
  else if k = 127 then some (byte_of_char ctx.player_ypos)
  else if k = 128 then some (byte_of_char ctx.next_dir)
  else none

/-- Store of the byte `b` at offset `k` from `ctx->cells`, inside the structure. -/
def store_byte (ctx : GameContext) (k : Nat) (b : Fin 256) : Option GameContext :=
  if k < 126 then
    some { ctx with cells := fun j => if j.val = k then b else ctx.cells j }
  else if k = 126 then some { ctx with player_xpos := char_of_byte b }
  else if k = 127 then some { ctx with player_ypos := char_of_byte b }
  else if k = 128 then some { ctx with next_dir := char_of_byte b }
  else none

/-- Source: `SDL_memcpy(&range, ctx->cells + k, sizeof(range))` for an
`unsigned short range`. -/
def load_range (ctx : GameContext) (k : Nat) : Option Nat :=
  match load_byte ctx k, load_byte ctx (k + 1) with
  | some b0, some b1 => some (b0.val + 256 * b1.val)
  | _, _ => none

/-- Source: `SDL_memcpy(ctx->cells + k, &range, sizeof(range))` for an
`unsigned short range`. -/
def store_range (ctx : GameContext) (k : Nat) (range : Nat) : Option GameContext :=
  match store_byte ctx k ⟨range % 256, Nat.mod_lt _ (by decide)⟩ with
  | none => none
  | some ctx1 => store_byte ctx1 (k + 1) ⟨range / 256 % 256, Nat.mod_lt _ (by decide)⟩

/-- Source: `CellType cell_at(const GameContext *ctx, char x, char y)` -/
def cell_at (ctx : GameContext) (x y : Int) : Option Nat :=
  let shift : Int := to_int (SHIFT x y)
  if shift < 0 then none
  else
    match load_range ctx (shift.toNat / 8) with
    | none => none
    | some range => some ((range >>> (shift.toNat % 8)) &&& THREE_BITS)

/-- Source: `static void put_cell_at_(GameContext *ctx, char x, char y, CellType ct)` -/
def put_cell_at_ (ctx : GameContext) (x y : Int) (ct : Nat) : Option GameContext :=
  let shift : Int := to_int (SHIFT x y)
  if shift < 0 then none
  else
    let adjust : Nat := shift.toNat % 8
    let pos : Nat := shift.toNat / 8
    match load_range ctx pos with
    | none => none
    | some range =>
      let range1 := to_ushort (range &&& bit_not (THREE_BITS <<< adjust))
      let range2 := to_ushort (range1 ||| ((ct &&& THREE_BITS) <<< adjust))
      store_range ctx pos range2

/-- Source: `static void wrap_around_(char *val, char max)` -/
def wrap_around_ (val max : Int) : Int :=
  if val < 0 then to_char (max - 1)
  else if val > max - 1 then 0
  else val

/-- Source: `void game_initialize(GameContext *ctx)` -/
def game_initialize (ctx : GameContext) : Option GameContext :=
  let ctx1 : GameContext := { ctx with cells := fun _ => 0 }
  let ctx2 : GameContext := { ctx1 with player_xpos := to_char (GAME_GRID_WIDTH / 2 : Nat) }
  let ctx3 : GameContext := { ctx2 with player_ypos := to_char (GAME_GRID_HEIGHT / 2 : Nat) }
  let ctx4 : GameContext := { ctx3 with next_dir := to_char Direction.DIR_RIGHT.code }
  put_cell_at_ ctx4 ctx4.player_xpos ctx4.player_ypos CELL_PLAYER

/-- Source: `void player_redir(GameContext *ctx, Direction dir)` -/
def player_redir (ctx : GameContext) (dir : Direction) : GameContext :=
  { ctx with next_dir := to_char dir.code }

/-- The `switch (ctx->next_dir)` of `game_step`: one unit move. -/
def move_player (ctx : GameContext) : GameContext :=
  if ctx.next_dir = Direction.DIR_RIGHT.code then
    { ctx with player_xpos := to_char (ctx.player_xpos + 1) }
  else if ctx.next_dir = Direction.DIR_UP.code then
    { ctx with player_ypos := to_char (ctx.player_ypos - 1) }
  else if ctx.next_dir = Direction.DIR_LEFT.code then
    { ctx with player_xpos := to_char (ctx.player_xpos - 1) }
  else if ctx.next_dir = Direction.DIR_DOWN.code then
    { ctx with player_ypos := to_char (ctx.player_ypos + 1) }
  else ctx

/-- The two `wrap_around_` calls of `game_step`. -/
def wrap_player (ctx : GameContext) : GameContext :=
  let ctx1 : GameContext :=
    { ctx with player_xpos := wrap_around_ ctx.player_xpos (to_char (GAME_GRID_WIDTH : Nat)) }
  { ctx1 with player_ypos := wrap_around_ ctx1.player_ypos (to_char (GAME_GRID_HEIGHT : Nat)) }

/-- Source: `void game_step(GameContext *ctx)` -/
def game_step (ctx : GameContext) : Option GameContext :=
  let prev_xpos := ctx.player_xpos
  let prev_ypos := ctx.player_ypos
  let ctx1 := wrap_player (move_player ctx)
  match cell_at ctx1 ctx1.player_xpos ctx1.player_ypos with
  | none => none
  | some ct =>
    if ct ≠ CELL_EMPTY then game_initialize ctx1
    else
      match put_cell_at_ ctx1 prev_xpos prev_ypos CELL_EMPTY with
      | none => none
      | some ctx2 => put_cell_at_ ctx2 ctx2.player_xpos ctx2.player_ypos CELL_PLAYER

/-- The context with an all-zero grid, player at `(0, 0)`, direction `0`. -/
def zero_ctx : GameContext :=
  { cells := fun _ => 0, player_xpos := 0, player_ypos := 0, next_dir := 0 }

/-! ## Auxiliary definitions used in the proofs -/

/-- The window after the read-modify-write of `put_cell_at_`. -/
def rmw (range adjust ct : Nat) : Nat :=
  to_ushort (to_ushort (range &&& bit_not (THREE_BITS <<< adjust))
    ||| ((ct &&& THREE_BITS) <<< adjust))

/-- The byte at offset `k` of the structure as a number (`0` outside it). -/
def mem (ctx : GameContext) (k : Nat) : Nat :=
  match load_byte ctx k with
  | some b => b.val
  | none => 0

/-- Bit `n` of the structure read as a bit string, least significant bit
of each byte first. -/
def bit_at (ctx : GameContext) (n : Nat) : Bool :=
  Nat.testBit (mem ctx (n / 8)) (n % 8)

/-- Index of the cell `(x, y)` in row-major order. -/
def cell_index (x y : Int) : Nat := (x + 24 * y).toNat

/-- The value `cell_at` computes for the cell of index `i`. -/
def cell_value (ctx : GameContext) (i : Nat) : Nat :=
  ((mem ctx (3 * i / 8) + 256 * mem ctx (3 * i / 8 + 1)) >>> (3 * i % 8)) &&& THREE_BITS

/-- The player position is inside the grid: `0 <= x < 24` and `0 <= y < 14`. -/
def pos_ok (ctx : GameContext) : Prop :=
  0 ≤ ctx.player_xpos ∧ ctx.player_xpos < 24 ∧ 0 ≤ ctx.player_ypos ∧ ctx.player_ypos < 14

instance pos_ok_decidable (ctx : GameContext) : Decidable (pos_ok ctx) := by
  unfold pos_ok
  exact inferInstance

/-- Every in-bounds cell reads as a value in `[0, 5]`. -/
def cells_ok (ctx : GameContext) : Prop :=
  ∀ x y : Int, 0 ≤ x → x < 24 → 0 ≤ y → y < 14 → ∃ v, cell_at ctx x y = some v ∧ v ≤ 5

/-- The unit move of a direction in the words of the specification:
Right `(+1, 0)`, Up `(0, -1)`, Left `(-1, 0)`, Down `(0, +1)`. -/
def spec_delta : Direction → Int × Int
  | .DIR_RIGHT => (1, 0)
  | .DIR_UP => (0, -1)
  | .DIR_LEFT => (-1, 0)
  | .DIR_DOWN => (0, 1)

/-- The target column in the words of the specification: one unit move, modulo the width. -/
def spec_target_x (ctx : GameContext) (d : Direction) : Int :=
  (ctx.player_xpos + (spec_delta d).1) % 24

/-- The target row in the words of the specification: one unit move, modulo the height. -/
def spec_target_y (ctx : GameContext) (d : Direction) : Int :=
  (ctx.player_ypos + (spec_delta d).2) % 14

/-- Repeated calls: `n` consecutive calls of `game_step`. -/
def game_steps : Nat → GameContext → Option GameContext
  | 0, ctx => some ctx
  | n + 1, ctx =>
    match game_step ctx with
    | none => none
    | some ctx1 => game_steps n ctx1

/-- The states reachable from `game_initialize` by `game_step`, `player_redir` and
`game_initialize` calls. -/
inductive Reachable : GameContext → Prop where
  | init (ctx s : GameContext) : game_initialize ctx = some s → Reachable s
  | step (s s1 : GameContext) : Reachable s → game_step s = some s1 → Reachable s1
  | redir (s : GameContext) (d : Direction) : Reachable s → Reachable (player_redir s d)
  | restart (s s1 : GameContext) : Reachable s → game_initialize s = some s1 → Reachable s1

/-- The state after `game_initialize`: only byte 67 of the grid is non-zero
(bit 4, the low bit of cell `(12, 7)`), the player is at `(12, 7)`, direction `DIR_RIGHT`. -/
def initial_ctx : GameContext :=
  { cells := fun k => if k.val = 67 then 16 else 0,
    player_xpos := 12, player_ypos := 7, next_dir := 0 }

/-- A context with arbitrary grid contents, player at `(3, 13)`, direction `DIR_LEFT`. -/
def sample_ctx : GameContext :=
  { cells := fun k => ⟨(37 * k.val + 11) % 256, Nat.mod_lt _ (by decide)⟩,
    player_xpos := 3, player_ypos := 13, next_dir := 2 }

/-- The state after `game_initialize` with cell `(13, 7)` also set to `CELL_PLAYER`. -/
def blocked_ctx : GameContext :=
  { cells := fun k => if k.val = 67 then 144 else 0,
    player_xpos := 12, player_ypos := 7, next_dir := 0 }

/-- The player is at `(px, py)` and that cell is the only non-empty one: it holds
`CELL_PLAYER` and every other in-bounds cell holds `CELL_EMPTY`. -/
def lone_player (s : GameContext) (px py : Int) : Prop :=
  s.player_xpos = px ∧ s.player_ypos = py ∧
    ∀ x y : Int, 0 ≤ x → x < 24 → 0 ≤ y → y < 14 →
      cell_at s x y = if x = px ∧ y = py then some CELL_PLAYER else some CELL_EMPTY

/-! ## The frame pump: the logic loop of `SDL_AppIterate` -/

/-- Source: `typedef struct { SDL_Window *window; SDL_Renderer *renderer;
GameContext game_ctx; Uint64 last_step; } AppState;` without the two handles of the
windowing library, which the logic loop does not use. -/
structure AppState where
  game_ctx : GameContext
  last_step : Nat

/-- Subtraction of two `Uint64` values, modulo `2^64`. -/
def sub_u64 (a b : Nat) : Nat :=
  (a % 18446744073709551616 + 18446744073709551616 - b % 18446744073709551616)
    % 18446744073709551616

/-- Addition of two `Uint64` values, modulo `2^64`. -/
def add_u64 (a b : Nat) : Nat := (a + b) % 18446744073709551616

/-- The `while` loop of `SDL_AppIterate` with the call in its body as a parameter:
`while ((now - as->last_step) >= STEP_RATE_IN_MILLISECONDS)
{ step(ctx); as->last_step += STEP_RATE_IN_MILLISECONDS; }`.
The result is the state at loop exit together with the number of iterations run. -/
def catch_up_loop (step : GameContext → Option GameContext) (now : Nat) (as : AppState) :
    Option (AppState × Nat) :=
  if sub_u64 now as.last_step ≥ STEP_RATE_IN_MILLISECONDS then
    match step as.game_ctx with
    | none => none
    | some ctx1 =>
      match catch_up_loop step now
          { game_ctx := ctx1,
            last_step := add_u64 as.last_step STEP_RATE_IN_MILLISECONDS } with
      | none => none
      | some (as1, n) => some (as1, n + 1)
  else some (as, 0)
termination_by sub_u64 now as.last_step
decreasing_by
  simp only [sub_u64, add_u64, STEP_RATE_IN_MILLISECONDS] at *
  omega

/-- The logic loop of `SDL_AppIterate`, whose body calls `game_step(ctx)`. -/
def SDL_AppIterate_loop (now : Nat) (as : AppState) : Option (AppState × Nat) :=
  catch_up_loop game_step now as

/-! ## Keyboard input -/

/-- The enumeration `SDL_Scancode` of the SDL3 headers: the seven enumerators that
`handle_key_event_` names, and `other` for each remaining scancode. -/
inductive SDL_Scancode where
  | SDL_SCANCODE_ESCAPE
  | SDL_SCANCODE_Q
  | SDL_SCANCODE_R
  | SDL_SCANCODE_RIGHT
  | SDL_SCANCODE_UP
  | SDL_SCANCODE_LEFT
  | SDL_SCANCODE_DOWN
  | other (code : Nat)
  deriving DecidableEq, Repr

/-- The enumeration `SDL_AppResult` of the SDL3 headers. -/
inductive SDL_AppResult where
  | SDL_APP_CONTINUE
  | SDL_APP_SUCCESS
  | SDL_APP_FAILURE
  deriving DecidableEq, Repr

/-- Source: `static int handle_key_event_(GameContext *ctx, SDL_Scancode key_code)`;
the result is the returned value together with the context after the call. -/
def handle_key_event_ (ctx : GameContext) (key_code : SDL_Scancode) :
    Option (SDL_AppResult × GameContext) :=
  match key_code with
  | .SDL_SCANCODE_ESCAPE => some (SDL_AppResult.SDL_APP_SUCCESS, ctx)
  | .SDL_SCANCODE_Q => some (SDL_AppResult.SDL_APP_SUCCESS, ctx)
  | .SDL_SCANCODE_R =>
    match game_initialize ctx with
    | none => none
    | some ctx1 => some (SDL_AppResult.SDL_APP_CONTINUE, ctx1)
  | .SDL_SCANCODE_RIGHT =>
    some (SDL_AppResult.SDL_APP_CONTINUE, player_redir ctx Direction.DIR_RIGHT)
  | .SDL_SCANCODE_UP =>
    some (SDL_AppResult.SDL_APP_CONTINUE, player_redir ctx Direction.DIR_UP)
  | .SDL_SCANCODE_LEFT =>
    some (SDL_AppResult.SDL_APP_CONTINUE, player_redir ctx Direction.DIR_LEFT)
  | .SDL_SCANCODE_DOWN =>
    some (SDL_AppResult.SDL_APP_CONTINUE, player_redir ctx Direction.DIR_DOWN)
  | .other _ => some (SDL_AppResult.SDL_APP_CONTINUE, ctx)

/-! ## The assertion macros (`src/templates/sdl3/assertions.h`) -/

/-- An argument of a `fprintf` call: a string or an integer. -/
inductive PrintArg where
  | str (s : String)
  | int (n : Int)
  deriving DecidableEq, Repr

/-- One call `fprintf(stderr, fmt, args...)`: the format string and the arguments. -/
structure Fprintf where
  fmt : String
  args : List PrintArg
  deriving DecidableEq, Repr

/-- Result of evaluating C code that may call `exit`: either it returns a value or the
process terminates with a status; in both cases with the calls made on `stderr`. -/
inductive Outcome (α : Type) where
  | returns (value : α) (err : List Fprintf)
  | exits (status : Int) (err : List Fprintf)
  deriving DecidableEq, Repr

/-- Sequencing of two computations: the second runs only if the first returns. -/
def Outcome.andThen {α β : Type} (a : Outcome α) (f : α → Outcome β) : Outcome β :=
  match a with
  | .returns v err =>
    match f v with
    | .returns w err1 => .returns w (err ++ err1)
    | .exits st err1 => .exits st (err ++ err1)
  | .exits st err => .exits st err

/-- The call `fprintf(stderr, fmt, args...)`. -/
def fprintf_stderr (fmt : String) (args : List PrintArg) : Outcome Unit :=
  .returns () [{ fmt := fmt, args := args }]

/-- The call `exit(status)`. -/
def exit (status : Int) : Outcome Unit := .exits status []

/-- Source: `static inline void assertion_failed_fmt(const char *file, int line,
const char *expected_expr, const char *actual_expr, const char *op, const char *fmt,
long long expected, long long actual)`. -/
def assertion_failed_fmt (file : String) (line : Int) (expected_expr actual_expr : String)
    (op fmt : String) (expected actual : Int) : Outcome Unit :=
  (fprintf_stderr "Assertion failed: %s:%d\n" [.str file, .int line]).andThen fun _ =>
  (fprintf_stderr "Expected: %s %s %s\n"
    [.str expected_expr, .str op, .str actual_expr]).andThen fun _ =>
  (fprintf_stderr "Values  : " []).andThen fun _ =>
  (fprintf_stderr fmt [.int expected]).andThen fun _ =>
  (fprintf_stderr " %s " [.str op]).andThen fun _ =>
  (fprintf_stderr fmt [.int actual]).andThen fun _ =>
  (fprintf_stderr "\n" []).andThen fun _ =>
  exit 1

/-- Source: `#define _c_assert_compare(expected, actual, op, fmt) ((expected)op(actual) ?
(true) : (assertion_failed_fmt(__FILE__, __LINE__, #expected, #actual, #op, fmt, expected,
actual), false))`.
The operator is given by its comparison `cmp` and its spelling `op`; `file`, `line` and the
spellings of the two operands are what the preprocessor supplies. -/
def _c_assert_compare (file : String) (line : Int) (expected_expr actual_expr : String)
    (cmp : Int → Int → Bool) (op fmt : String) (expected actual : Int) : Outcome Bool :=
  if cmp expected actual then .returns true []
  else
    (assertion_failed_fmt file line expected_expr actual_expr op fmt expected actual).andThen
      fun _ => .returns false []

/-- Source: `#define c_assert_int_eq(expected, actual)
_c_assert_compare(expected, actual, ==, "%d")`. -/
def c_assert_int_eq (file : String) (line : Int) (expected_expr actual_expr : String)
    (expected actual : Int) : Outcome Bool :=
  _c_assert_compare file line expected_expr actual_expr (fun a b => decide (a = b)) "==" "%d"
    expected actual

/-- Source: `#define c_assert_true(value) _c_assert_compare(value, true, ==, "%d")`, where
`true` is the integer 1. -/
def c_assert_true (file : String) (line : Int) (value_expr : String) (value : Int) :
    Outcome Bool :=
  _c_assert_compare file line value_expr "true" (fun a b => decide (a = b)) "==" "%d" value 1

/-- Source: `#define c_assert_false(value) _c_assert_compare(value, false, ==, "%d")`,
where `false` is the integer 0. -/
def c_assert_false (file : String) (line : Int) (value_expr : String) (value : Int) :
    Outcome Bool :=
  _c_assert_compare file line value_expr "false" (fun a b => decide (a = b)) "==" "%d" value 0

/-! ## The packing layout -/

/-- The offset `shift / 8` from `ctx->cells` of the two-byte window that `cell_at` reads and
`put_cell_at_` reads and writes. -/
def window_pos (x y : Int) : Nat := (to_int (SHIFT x y)).toNat / 8

/-- Bit `k` of a grid buffer read as a bit string in the words of the specification:
bit `k mod 8` of byte `floor(k / 8)`. -/
def spec_grid_bit (cells : Fin 126 → Fin 256) (k : Nat) : Bool :=
  if h : k / 8 < 126 then Nat.testBit (cells ⟨k / 8, h⟩).val (k % 8) else false

/-- The cell of index `i` in the words of the specification: the 3-bit number whose bits,
least significant first, are bits `3i`, `3i+1`, `3i+2` of the buffer. -/
def spec_cell (cells : Fin 126 → Fin 256) (i : Nat) : Nat :=
  (spec_grid_bit cells (3 * i)).toNat + 2 * (spec_grid_bit cells (3 * i + 1)).toNat
    + 4 * (spec_grid_bit cells (3 * i + 2)).toNat

/-! ## Bit-level lemmas -/

theorem CELLS_LEN_eq : CELLS_LEN = 126 := rfl

theorem testBit_seven (j : Nat) : Nat.testBit 7 j = decide (j < 3) :=
  Nat.testBit_two_pow_sub_one 3 j

theorem testBit_ones32 (j : Nat) : Nat.testBit 4294967295 j = decide (j < 32) :=
  Nat.testBit_two_pow_sub_one 32 j

theorem testBit_mod_65536 (n j : Nat) :
    Nat.testBit (n % 65536) j = (decide (j < 16) && Nat.testBit n j) :=
  Nat.testBit_mod_two_pow n 16 j

theorem testBit_mod_256 (n j : Nat) :
    Nat.testBit (n % 256) j = (decide (j < 8) && Nat.testBit n j) :=
  Nat.testBit_mod_two_pow n 8 j

theorem testBit_mod_u32 (n j : Nat) :
    Nat.testBit (n % 4294967296) j = (decide (j < 32) && Nat.testBit n j) :=
  Nat.testBit_mod_two_pow n 32 j

theorem testBit_rmw (r a v t : Nat) (ht : t < 16) :
    Nat.testBit (rmw r a v) t =
      if a ≤ t ∧ t < a + 3 then Nat.testBit v (t - a) else Nat.testBit r t := by
  unfold rmw to_ushort bit_not THREE_BITS
  simp only [testBit_mod_65536, Nat.testBit_or, Nat.testBit_and, Nat.testBit_xor,
    testBit_ones32, testBit_mod_u32, Nat.testBit_shiftLeft, testBit_seven]
  by_cases h1 : a ≤ t
  · by_cases h2 : t < a + 3
    · have h3 : t - a < 3 := by omega
      have h4 : t < 32 := by omega
      simp [h1, h2, h3, h4, ht]
    · have h3 : ¬ (t - a < 3) := by omega
      have h4 : t < 32 := by omega
      simp [h1, h2, h3, h4, ht]
  · have h4 : t < 32 := by omega
    have h5 : ¬ (t ≥ a) := by omega
    simp [h1, h4, ht, h5]

theorem testBit_window (b0 b1 : Nat) (h0 : b0 < 256) (t : Nat) :
    Nat.testBit (b0 + 256 * b1) t =
      if t < 8 then Nat.testBit b0 t else Nat.testBit b1 (t - 8) := by
  have h := Nat.testBit_mul_pow_two_add b1 (show b0 < 2 ^ 8 by simpa using h0) t
  have e : 2 ^ 8 * b1 + b0 = b0 + 256 * b1 := by norm_num; omega
  rw [e] at h
  exact h

theorem byte_of_char_of_byte (b : Fin 256) : byte_of_char (char_of_byte b) = b := by
  apply Fin.ext
  have hb := b.isLt
  unfold byte_of_char char_of_byte
  simp only
  split <;> omega

theorem char_of_byte_of_char (c : Int) (h1 : -128 ≤ c) (h2 : c ≤ 127) :
    char_of_byte (byte_of_char c) = c := by
  unfold byte_of_char char_of_byte
  simp only
  split <;> omega

theorem mem_lt (ctx : GameContext) (k : Nat) : mem ctx k < 256 := by
  unfold mem
  split
  · exact Fin.isLt _
  · decide

theorem load_byte_eq (ctx : GameContext) (k : Nat) (hk : k ≤ 128) :
    ∃ b, load_byte ctx k = some b ∧ b.val = mem ctx k := by
  unfold mem load_byte
  by_cases h1 : k < 126
  · simp [h1]
  · by_cases h2 : k = 126
    · simp [h2]
    · by_cases h3 : k = 127
      · simp [h3]
      · have h4 : k = 128 := by omega
        simp [h4]

theorem load_range_eq (ctx : GameContext) (k : Nat) (hk : k ≤ 127) :
    load_range ctx k = some (mem ctx k + 256 * mem ctx (k + 1)) := by
  obtain ⟨b0, e0, v0⟩ := load_byte_eq ctx k (by omega)
  obtain ⟨b1, e1, v1⟩ := load_byte_eq ctx (k + 1) (by omega)
  unfold load_range
  rw [e0, e1]
  simp only [v0, v1]

theorem mem_eq (ctx : GameContext) (m : Nat) :
    mem ctx m =
      if h : m < 126 then (ctx.cells ⟨m, h⟩).val
      else if m = 126 then (byte_of_char ctx.player_xpos).val
      else if m = 127 then (byte_of_char ctx.player_ypos).val
      else if m = 128 then (byte_of_char ctx.next_dir).val
      else 0 := by
  unfold mem load_byte
  split_ifs <;> rfl

theorem mem_store_byte (ctx ctx1 : GameContext) (k : Nat) (b : Fin 256)
    (h : store_byte ctx k b = some ctx1) (m : Nat) :
    mem ctx1 m = if m = k then b.val else mem ctx m := by
  unfold store_byte at h
  rw [mem_eq, mem_eq]
  split_ifs at h with h1 h2 h3 h4
  all_goals
    simp only [Option.some.injEq] at h
    subst h
    simp only [byte_of_char_of_byte]
    split_ifs <;> first | rfl | (exfalso; omega)

theorem cell_index_lt (x y : Int) (hx0 : 0 ≤ x) (hx : x < 24) (hy0 : 0 ≤ y) (hy : y < 14) :
    cell_index x y < 336 := by
  unfold cell_index
  omega

theorem shift_in_bounds (x y : Int) (hx0 : 0 ≤ x) (hx : x < 24) (hy0 : 0 ≤ y) (hy : y < 14) :
    to_int (SHIFT x y) = ((3 * cell_index x y : Nat) : Int) := by
  unfold to_int SHIFT to_uint cell_index GAME_GRID_WIDTH CELL_MAX_BITS
  split <;> omega

theorem store_byte_cells (ctx : GameContext) (k : Nat) (b : Fin 256) (hk : k < 126) :
    ∃ ctx1, store_byte ctx k b = some ctx1 ∧ ctx1.player_xpos = ctx.player_xpos ∧
      ctx1.player_ypos = ctx.player_ypos ∧ ctx1.next_dir = ctx.next_dir := by
  unfold store_byte
  simp [hk]

theorem store_byte_xpos (ctx : GameContext) (b : Fin 256) :
    ∃ ctx1, store_byte ctx 126 b = some ctx1 ∧ ctx1.player_xpos = char_of_byte b ∧
      ctx1.player_ypos = ctx.player_ypos ∧ ctx1.next_dir = ctx.next_dir := by
  unfold store_byte
  simp

theorem store_range_eq (ctx : GameContext) (k r : Nat) (hk : k ≤ 125) :
    ∃ ctx2, store_range ctx k r = some ctx2 ∧
      (∀ m, mem ctx2 m =
        if m = k + 1 then r / 256 % 256 else if m = k then r % 256 else mem ctx m) ∧
      ctx2.player_xpos =
        (if k = 125 then
          char_of_byte ⟨r / 256 % 256, Nat.mod_lt _ (by decide)⟩ else ctx.player_xpos) ∧
      ctx2.player_ypos = ctx.player_ypos ∧ ctx2.next_dir = ctx.next_dir := by
  obtain ⟨ctx1, e1, x1, y1, d1⟩ :=
    store_byte_cells ctx k ⟨r % 256, Nat.mod_lt _ (by decide)⟩ (by omega)
  have m1 := mem_store_byte ctx ctx1 k _ e1
  by_cases h : k = 125
  · subst h
    obtain ⟨ctx2, e2, x2, y2, d2⟩ :=
      store_byte_xpos ctx1 ⟨r / 256 % 256, Nat.mod_lt _ (by decide)⟩
    have m2 := mem_store_byte ctx1 ctx2 126 _ e2
    refine ⟨ctx2, ?_, ?_, ?_, ?_, ?_⟩
    · unfold store_range
      rw [e1]
      exact e2
    · intro m
      rw [m2, m1]
    · simp [x2]
    · rw [y2, y1]
    · rw [d2, d1]
  · obtain ⟨ctx2, e2, x2, y2, d2⟩ :=
      store_byte_cells ctx1 (k + 1) ⟨r / 256 % 256, Nat.mod_lt _ (by decide)⟩ (by omega)
    have m2 := mem_store_byte ctx1 ctx2 (k + 1) _ e2
    refine ⟨ctx2, ?_, ?_, ?_, ?_, ?_⟩
    · unfold store_range
      rw [e1]
      exact e2
    · intro m
      rw [m2, m1]
    · simp [h, x2, x1]
    · rw [y2, y1]
    · rw [d2, d1]

theorem cell_at_eq (ctx : GameContext) (x y : Int)
    (hx0 : 0 ≤ x) (hx : x < 24) (hy0 : 0 ≤ y) (hy : y < 14) :
    cell_at ctx x y = some (cell_value ctx (cell_index x y)) := by
  have hi := cell_index_lt x y hx0 hx hy0 hy
  unfold cell_at
  simp only [shift_in_bounds x y hx0 hx hy0 hy]
  have hneg : ¬ (((3 * cell_index x y : Nat) : Int) < 0) := by omega
  rw [if_neg hneg, Int.toNat_ofNat, load_range_eq ctx _ (by omega)]
  rfl

theorem put_cell_at_eq (ctx : GameContext) (x y : Int) (v : Nat)
    (hx0 : 0 ≤ x) (hx : x < 24) (hy0 : 0 ≤ y) (hy : y < 14) :
    put_cell_at_ ctx x y v =
      store_range ctx (3 * cell_index x y / 8)
        (rmw (mem ctx (3 * cell_index x y / 8) + 256 * mem ctx (3 * cell_index x y / 8 + 1))
          (3 * cell_index x y % 8) v) := by
  have hi := cell_index_lt x y hx0 hx hy0 hy
  unfold put_cell_at_
  simp only [shift_in_bounds x y hx0 hx hy0 hy]
  have hneg : ¬ (((3 * cell_index x y : Nat) : Int) < 0) := by omega
  rw [if_neg hneg, Int.toNat_ofNat, load_range_eq ctx _ (by omega)]
  rfl

theorem testBit_window_mem (ctx : GameContext) (k t : Nat) (ht : t < 16) :
    Nat.testBit (mem ctx k + 256 * mem ctx (k + 1)) t = bit_at ctx (8 * k + t) := by
  rw [testBit_window _ _ (mem_lt ctx k)]
  unfold bit_at
  by_cases h : t < 8
  · have e1 : (8 * k + t) / 8 = k := by omega
    have e2 : (8 * k + t) % 8 = t := by omega
    rw [if_pos h, e1, e2]
  · have e1 : (8 * k + t) / 8 = k + 1 := by omega
    have e2 : (8 * k + t) % 8 = t - 8 := by omega
    rw [if_neg h, e1, e2]

theorem testBit_cell_value (ctx : GameContext) (i j : Nat) :
    Nat.testBit (cell_value ctx i) j = (decide (j < 3) && bit_at ctx (3 * i + j)) := by
  unfold cell_value THREE_BITS
  rw [Nat.testBit_and, Nat.testBit_shiftRight, testBit_seven]
  by_cases h : j < 3
  · rw [testBit_window_mem ctx _ _ (by omega)]
    have e : 8 * (3 * i / 8) + (3 * i % 8 + j) = 3 * i + j := by omega
    rw [e, Bool.and_comm]
  · simp [h]

theorem cell_value_lt (ctx : GameContext) (i : Nat) : cell_value ctx i < 8 := by
  unfold cell_value THREE_BITS
  exact Nat.lt_of_le_of_lt Nat.and_le_right (by decide)

theorem testBit_low_byte (r j : Nat) :
    Nat.testBit (r % 256) j = (decide (j < 8) && Nat.testBit r j) :=
  testBit_mod_256 r j

theorem testBit_high_byte (r j : Nat) :
    Nat.testBit (r / 256 % 256) j = (decide (j < 8) && Nat.testBit r (8 + j)) := by
  rw [testBit_mod_256]
  have e : r / 256 = r >>> 8 := by rw [Nat.shiftRight_eq_div_pow]
  rw [e, Nat.testBit_shiftRight]

theorem high_byte_rmw (ctx : GameContext) (k a v : Nat) (ha : a + 3 ≤ 8) :
    rmw (mem ctx k + 256 * mem ctx (k + 1)) a v / 256 % 256 = mem ctx (k + 1) := by
  apply Nat.eq_of_testBit_eq
  intro j
  rw [testBit_high_byte]
  by_cases hj : j < 8
  · rw [testBit_rmw _ _ _ _ (by omega)]
    have hc : ¬ (a ≤ 8 + j ∧ 8 + j < a + 3) := by omega
    rw [if_neg hc, testBit_window _ _ (mem_lt ctx k)]
    have h8 : ¬ (8 + j < 8) := by omega
    have e : 8 + j - 8 = j := by omega
    simp [hj, h8, e]
  · have hlt : mem ctx (k + 1) < 2 ^ j :=
      Nat.lt_of_lt_of_le (mem_lt ctx (k + 1))
        (by
          have : 2 ^ 8 ≤ 2 ^ j := Nat.pow_le_pow_right (by decide) (by omega)
          simpa using this)
    rw [Nat.testBit_lt_two_pow hlt]
    simp [hj]

theorem put_cell_at_spec (ctx : GameContext) (x y : Int) (v : Nat)
    (hx0 : 0 ≤ x) (hx : x < 24) (hy0 : 0 ≤ y) (hy : y < 14) :
    ∃ ctx2, put_cell_at_ ctx x y v = some ctx2 ∧
      (∀ n, bit_at ctx2 n =
        if 3 * cell_index x y ≤ n ∧ n < 3 * cell_index x y + 3
        then Nat.testBit v (n - 3 * cell_index x y) else bit_at ctx n) ∧
      ctx2.player_ypos = ctx.player_ypos ∧ ctx2.next_dir = ctx.next_dir ∧
      (-128 ≤ ctx.player_xpos → ctx.player_xpos ≤ 127 →
        ctx2.player_xpos = ctx.player_xpos) := by
  have hi := cell_index_lt x y hx0 hx hy0 hy
  rw [put_cell_at_eq ctx x y v hx0 hx hy0 hy]
  generalize cell_index x y = i at hi
  obtain ⟨ctx2, e, hm, hxp, hyp, hd⟩ :=
    store_range_eq ctx (3 * i / 8)
      (rmw (mem ctx (3 * i / 8) + 256 * mem ctx (3 * i / 8 + 1)) (3 * i % 8) v) (by omega)
  refine ⟨ctx2, e, ?_, hyp, hd, ?_⟩
  · intro n
    unfold bit_at
    rw [hm]
    by_cases h1 : n / 8 = 3 * i / 8 + 1
    · rw [if_pos h1, testBit_high_byte, testBit_rmw _ _ _ _ (by omega),
        testBit_window_mem ctx _ _ (by omega)]
      have e1 : 8 * (3 * i / 8) + (8 + n % 8) = n := by omega
      have e2 : decide (n % 8 < 8) = true := by simp; omega
      rw [e1, e2, Bool.true_and]
      by_cases hc : 3 * i ≤ n ∧ n < 3 * i + 3
      · have hc2 : 3 * i % 8 ≤ 8 + n % 8 ∧ 8 + n % 8 < 3 * i % 8 + 3 := by omega
        have e3 : 8 + n % 8 - 3 * i % 8 = n - 3 * i := by omega
        rw [if_pos hc, if_pos hc2, e3]
      · have hc2 : ¬ (3 * i % 8 ≤ 8 + n % 8 ∧ 8 + n % 8 < 3 * i % 8 + 3) := by omega
        rw [if_neg hc, if_neg hc2]
        rfl
    · rw [if_neg h1]
      by_cases h2 : n / 8 = 3 * i / 8
      · rw [if_pos h2, testBit_low_byte, testBit_rmw _ _ _ _ (by omega),
          testBit_window_mem ctx _ _ (by omega)]
        have e1 : 8 * (3 * i / 8) + n % 8 = n := by omega
        have e2 : decide (n % 8 < 8) = true := by simp; omega
        rw [e1, e2, Bool.true_and]
        by_cases hc : 3 * i ≤ n ∧ n < 3 * i + 3
        · have hc2 : 3 * i % 8 ≤ n % 8 ∧ n % 8 < 3 * i % 8 + 3 := by omega
          have e3 : n % 8 - 3 * i % 8 = n - 3 * i := by omega
          rw [if_pos hc, if_pos hc2, e3]
        · have hc2 : ¬ (3 * i % 8 ≤ n % 8 ∧ n % 8 < 3 * i % 8 + 3) := by omega
          rw [if_neg hc, if_neg hc2]
          rfl
      · have hc : ¬ (3 * i ≤ n ∧ n < 3 * i + 3) := by omega
        rw [if_neg h2, if_neg hc]
  · intro hlo hhi
    rw [hxp]
    by_cases hk : 3 * i / 8 = 125
    · rw [if_pos hk]
      have hb : (⟨rmw (mem ctx (3 * i / 8) + 256 * mem ctx (3 * i / 8 + 1)) (3 * i % 8) v
          / 256 % 256, Nat.mod_lt _ (by decide)⟩ : Fin 256) = byte_of_char ctx.player_xpos := by
        apply Fin.ext
        simp only
        rw [high_byte_rmw ctx _ _ _ (by omega), hk, mem_eq]
        simp
      rw [hb]
      exact char_of_byte_of_char _ hlo hhi
    · rw [if_neg hk]

/-! ## Cell-level behaviour of `cell_at` and `put_cell_at_` -/

theorem cell_index_inj (x y x1 y1 : Int)
    (hx0 : 0 ≤ x) (hx : x < 24) (hy0 : 0 ≤ y) (_hy : y < 14)
    (hx10 : 0 ≤ x1) (hx1 : x1 < 24) (hy10 : 0 ≤ y1) (_hy1 : y1 < 14)
    (h : cell_index x1 y1 = cell_index x y) : x1 = x ∧ y1 = y := by
  unfold cell_index at h
  omega

theorem cell_value_put (ctx ctx2 : GameContext) (i v : Nat)
    (hbits : ∀ n, bit_at ctx2 n =
      if 3 * i ≤ n ∧ n < 3 * i + 3 then Nat.testBit v (n - 3 * i) else bit_at ctx n)
    (i1 : Nat) :
    cell_value ctx2 i1 = if i1 = i then v % 8 else cell_value ctx i1 := by
  apply Nat.eq_of_testBit_eq
  intro j
  rw [testBit_cell_value, hbits]
  by_cases h : i1 = i
  · subst h
    rw [if_pos rfl]
    have e : v % 8 = v % 2 ^ 3 := by norm_num
    rw [e, Nat.testBit_mod_two_pow]
    by_cases hj : j < 3
    · have hc : 3 * i1 ≤ 3 * i1 + j ∧ 3 * i1 + j < 3 * i1 + 3 := by omega
      have e2 : 3 * i1 + j - 3 * i1 = j := by omega
      rw [if_pos hc, e2]
    · simp [hj]
  · rw [if_neg h, testBit_cell_value]
    by_cases hj : j < 3
    · have hc : ¬ (3 * i ≤ 3 * i1 + j ∧ 3 * i1 + j < 3 * i + 3) := by omega
      rw [if_neg hc]
    · simp [hj]

theorem put_cell_at_cells (ctx : GameContext) (x y : Int) (v : Nat)
    (hx0 : 0 ≤ x) (hx : x < 24) (hy0 : 0 ≤ y) (hy : y < 14) :
    ∃ ctx2, put_cell_at_ ctx x y v = some ctx2 ∧
      ctx2.player_ypos = ctx.player_ypos ∧ ctx2.next_dir = ctx.next_dir ∧
      (-128 ≤ ctx.player_xpos → ctx.player_xpos ≤ 127 →
        ctx2.player_xpos = ctx.player_xpos) ∧
      ∀ x1 y1 : Int, 0 ≤ x1 → x1 < 24 → 0 ≤ y1 → y1 < 14 →
        cell_at ctx2 x1 y1 =
          if x1 = x ∧ y1 = y then some (v % 8) else cell_at ctx x1 y1 := by
  obtain ⟨ctx2, e, hbits, hyp, hd, hxp⟩ := put_cell_at_spec ctx x y v hx0 hx hy0 hy
  refine ⟨ctx2, e, hyp, hd, hxp, ?_⟩
  intro x1 y1 hx10 hx1 hy10 hy1
  rw [cell_at_eq ctx2 x1 y1 hx10 hx1 hy10 hy1, cell_at_eq ctx x1 y1 hx10 hx1 hy10 hy1,
    cell_value_put ctx ctx2 (cell_index x y) v hbits]
  by_cases h : x1 = x ∧ y1 = y
  · obtain ⟨h1, h2⟩ := h
    subst h1 h2
    simp
  · have hne : cell_index x1 y1 ≠ cell_index x y := fun hc =>
      h (cell_index_inj x y x1 y1 hx0 hx hy0 hy hx10 hx1 hy10 hy1 hc)
    rw [if_neg hne, if_neg h]

/-! ## Claims -/

/-- C1: round trip. For every game context, every `x` in `[0,24)`, `y` in `[0,14)`
and every cell value `v` in `[0,5]`, `put_cell_at_(x, y, v)` succeeds and `cell_at(x, y)`
on the resulting context returns `v`. -/
theorem C1_put_then_cell_at (ctx : GameContext) (x y : Int) (v : Nat)
    (hx0 : 0 ≤ x) (hx : x < 24) (hy0 : 0 ≤ y) (hy : y < 14) (hv : v ≤ 5) :
    ∃ ctx2, put_cell_at_ ctx x y v = some ctx2 ∧ cell_at ctx2 x y = some v := by
  obtain ⟨ctx2, e, _, _, _, hc⟩ := put_cell_at_cells ctx x y v hx0 hx hy0 hy
  refine ⟨ctx2, e, ?_⟩
  rw [hc x y hx0 hx hy0 hy, if_pos ⟨rfl, rfl⟩]
  have : v % 8 = v := by omega
  rw [this]

/-- Witness of C1 at the last cell `(23, 13)` of the all-zero context, value 5. -/
theorem C1_put_then_cell_at_witness :
    ∃ ctx2, put_cell_at_ zero_ctx 23 13 5 = some ctx2 ∧ cell_at ctx2 23 13 = some 5 :=
  C1_put_then_cell_at zero_ctx 23 13 5 (by decide) (by decide) (by decide) (by decide)
    (by decide)

/-- C2: frame of `put_cell_at_`. For every game context, every in-bounds `(x, y)`,
every value `v` and every in-bounds `(x1, y1)` different from `(x, y)`,
`put_cell_at_(x, y, v)` succeeds and `cell_at(x1, y1)` returns the same value after it
as before it. -/
theorem C2_put_cell_at_frame (ctx : GameContext) (x y x1 y1 : Int) (v : Nat)
    (hx0 : 0 ≤ x) (hx : x < 24) (hy0 : 0 ≤ y) (hy : y < 14)
    (hx10 : 0 ≤ x1) (hx1 : x1 < 24) (hy10 : 0 ≤ y1) (hy1 : y1 < 14)
    (hne : ¬ (x1 = x ∧ y1 = y)) :
    ∃ ctx2 c, put_cell_at_ ctx x y v = some ctx2 ∧
      cell_at ctx x1 y1 = some c ∧ cell_at ctx2 x1 y1 = some c := by
  obtain ⟨ctx2, e, _, _, _, hc⟩ := put_cell_at_cells ctx x y v hx0 hx hy0 hy
  refine ⟨ctx2, cell_value ctx (cell_index x1 y1), e,
    cell_at_eq ctx x1 y1 hx10 hx1 hy10 hy1, ?_⟩
  rw [hc x1 y1 hx10 hx1 hy10 hy1, if_neg hne]
  exact cell_at_eq ctx x1 y1 hx10 hx1 hy10 hy1

/-- Witness of C2: writing cell `(2, 0)`, whose field spans bytes 0 and 1, leaves the
neighbouring cell `(1, 0)` of byte 0 as it was in `sample_ctx`. -/
theorem C2_put_cell_at_frame_witness :
    ∃ ctx2 c, put_cell_at_ sample_ctx 2 0 7 = some ctx2 ∧
      cell_at sample_ctx 1 0 = some c ∧ cell_at ctx2 1 0 = some c :=
  C2_put_cell_at_frame sample_ctx 2 0 1 0 7 (by decide) (by decide) (by decide) (by decide)
    (by decide) (by decide) (by decide) (by decide) (by decide)

/-! ## Initialisation, movement and the step -/

theorem game_initialize_eq (ctx : GameContext) : game_initialize ctx = some initial_ctx := by
  have h0 : game_initialize ctx =
      put_cell_at_ { cells := fun _ => 0, player_xpos := 12, player_ypos := 7, next_dir := 0 }
        12 7 CELL_PLAYER := rfl
  have hi : cell_index 12 7 = 180 := rfl
  rw [h0, put_cell_at_eq _ 12 7 _ (by decide) (by decide) (by decide) (by decide), hi]
  have e1 : 3 * 180 / 8 = 67 := rfl
  have e2 : 3 * 180 % 8 = 4 := rfl
  rw [e1, e2, mem_eq, mem_eq]
  have e3 : rmw (0 + 256 * 0) 4 CELL_PLAYER = 16 := rfl
  simp only [show (67 : Nat) < 126 from by decide, show (67 + 1 : Nat) < 126 from by decide,
    dif_pos, Fin.val_zero, e3]
  unfold store_range store_byte initial_ctx
  simp only [show (67 : Nat) < 126 from by decide, show (67 + 1 : Nat) < 126 from by decide,
    if_true]
  simp only [Option.some.injEq, GameContext.mk.injEq, and_true]
  funext j
  by_cases h1 : (j : Nat) = 68
  · have h2 : ¬ ((j : Nat) = 67) := by omega
    simp [h1]
  · simp [h1]

theorem cell_value_congr (ctx ctx1 : GameContext) (h : ctx1.cells = ctx.cells)
    (i : Nat) (hi : i < 336) : cell_value ctx1 i = cell_value ctx i := by
  apply Nat.eq_of_testBit_eq
  intro j
  rw [testBit_cell_value, testBit_cell_value]
  by_cases hj : j < 3
  · unfold bit_at
    have hk : (3 * i + j) / 8 < 126 := by omega
    rw [mem_eq, mem_eq, dif_pos hk, dif_pos hk, h]
  · simp [hj]

theorem cell_at_congr (ctx ctx1 : GameContext) (h : ctx1.cells = ctx.cells) (x y : Int)
    (hx0 : 0 ≤ x) (hx : x < 24) (hy0 : 0 ≤ y) (hy : y < 14) :
    cell_at ctx1 x y = cell_at ctx x y := by
  rw [cell_at_eq ctx1 x y hx0 hx hy0 hy, cell_at_eq ctx x y hx0 hx hy0 hy,
    cell_value_congr ctx ctx1 h _ (cell_index_lt x y hx0 hx hy0 hy)]

theorem cell_value_zero (ctx : GameContext) (h : ∀ k, ctx.cells k = 0)
    (i : Nat) (hi : i < 336) : cell_value ctx i = 0 := by
  apply Nat.eq_of_testBit_eq
  intro j
  rw [testBit_cell_value]
  by_cases hj : j < 3
  · unfold bit_at
    have hk : (3 * i + j) / 8 < 126 := by omega
    rw [mem_eq, dif_pos hk, h]
    simp
  · simp [hj]

theorem initial_ctx_cells (x y : Int) (hx0 : 0 ≤ x) (hx : x < 24) (hy0 : 0 ≤ y) (hy : y < 14) :
    cell_at initial_ctx x y =
      if x = 12 ∧ y = 7 then some CELL_PLAYER else some CELL_EMPTY := by
  obtain ⟨ctx2, e, _, _, _, hc⟩ :=
    put_cell_at_cells
      { cells := fun _ => 0, player_xpos := 12, player_ypos := 7, next_dir := 0 }
      12 7 CELL_PLAYER (by decide) (by decide) (by decide) (by decide)
  have h0 : game_initialize zero_ctx =
      put_cell_at_ { cells := fun _ => 0, player_xpos := 12, player_ypos := 7, next_dir := 0 }
        12 7 CELL_PLAYER := rfl
  rw [← h0, game_initialize_eq, Option.some.injEq] at e
  subst e
  rw [hc x y hx0 hx hy0 hy, cell_at_eq _ x y hx0 hx hy0 hy,
    cell_value_zero _ (fun _ => rfl) _ (cell_index_lt x y hx0 hx hy0 hy)]
  rfl

theorem wrap_player_pos_ok (ctx : GameContext) : pos_ok (wrap_player ctx) := by
  unfold pos_ok wrap_player wrap_around_ to_char GAME_GRID_WIDTH GAME_GRID_HEIGHT
  simp only
  refine ⟨?_, ?_, ?_, ?_⟩ <;> split_ifs <;> omega

theorem wrap_move_frame (ctx : GameContext) :
    (wrap_player (move_player ctx)).cells = ctx.cells ∧
      (wrap_player (move_player ctx)).next_dir = ctx.next_dir := by
  unfold wrap_player move_player
  split_ifs <;> exact ⟨rfl, rfl⟩

theorem wrap_move_target (ctx : GameContext) (d : Direction) (hpos : pos_ok ctx)
    (hd : ctx.next_dir = d.code) :
    (wrap_player (move_player ctx)).player_xpos = spec_target_x ctx d ∧
      (wrap_player (move_player ctx)).player_ypos = spec_target_y ctx d := by
  obtain ⟨h1, h2, h3, h4⟩ := hpos
  unfold wrap_player move_player spec_target_x spec_target_y spec_delta
  rw [hd]
  cases d <;>
    simp only [Direction.code, wrap_around_, to_char, GAME_GRID_WIDTH, GAME_GRID_HEIGHT] <;>
    simp <;> constructor <;> split_ifs <;> omega

theorem game_step_spec (ctx : GameContext) (hpos : pos_ok ctx) :
    (cell_at ctx (wrap_player (move_player ctx)).player_xpos
        (wrap_player (move_player ctx)).player_ypos ≠ some CELL_EMPTY ∧
      game_step ctx = some initial_ctx) ∨
    (cell_at ctx (wrap_player (move_player ctx)).player_xpos
        (wrap_player (move_player ctx)).player_ypos = some CELL_EMPTY ∧
      ∃ s, game_step ctx = some s ∧
        s.player_xpos = (wrap_player (move_player ctx)).player_xpos ∧
        s.player_ypos = (wrap_player (move_player ctx)).player_ypos ∧
        s.next_dir = ctx.next_dir ∧
        ∀ x y : Int, 0 ≤ x → x < 24 → 0 ≤ y → y < 14 →
          cell_at s x y =
            if x = (wrap_player (move_player ctx)).player_xpos ∧
                y = (wrap_player (move_player ctx)).player_ypos then some CELL_PLAYER
            else if x = ctx.player_xpos ∧ y = ctx.player_ypos then some CELL_EMPTY
            else cell_at ctx x y) := by
  obtain ⟨hcells, hdir⟩ := wrap_move_frame ctx
  have ht := wrap_player_pos_ok (move_player ctx)
  unfold game_step
  simp only
  generalize wrap_player (move_player ctx) = t at hcells hdir ht ⊢
  obtain ⟨t1, t2, t3, t4⟩ := ht
  obtain ⟨p1, p2, p3, p4⟩ := hpos
  rw [cell_at_congr ctx t hcells t.player_xpos t.player_ypos t1 t2 t3 t4,
    cell_at_eq ctx _ _ t1 t2 t3 t4]
  simp only
  by_cases hc : cell_value ctx (cell_index t.player_xpos t.player_ypos) = CELL_EMPTY
  · right
    rw [hc]
    refine ⟨rfl, ?_⟩
    simp only [ne_eq, not_true_eq_false, if_false]
    obtain ⟨ctx2, e2, y2, d2, x2, c2⟩ :=
      put_cell_at_cells t ctx.player_xpos ctx.player_ypos CELL_EMPTY p1 p2 p3 p4
    have x2 := x2 (by omega) (by omega)
    rw [e2]
    simp only
    obtain ⟨s, e3, y3, d3, x3, c3⟩ :=
      put_cell_at_cells ctx2 ctx2.player_xpos ctx2.player_ypos CELL_PLAYER
        (by omega) (by omega) (by omega) (by omega)
    have x3 := x3 (by omega) (by omega)
    refine ⟨s, e3, by rw [x3, x2], by rw [y3, y2], by rw [d3, d2, hdir], ?_⟩
    intro x y hx0 hx hy0 hy
    rw [c3 x y hx0 hx hy0 hy, c2 x y hx0 hx hy0 hy, x2, y2,
      cell_at_congr ctx t hcells x y hx0 hx hy0 hy]
    rfl
  · left
    refine ⟨?_, ?_⟩
    · intro h
      exact hc (Option.some.inj h)
    · rw [if_pos hc]
      exact game_initialize_eq t

theorem game_step_dir (ctx : GameContext) (d : Direction) (hpos : pos_ok ctx)
    (hd : ctx.next_dir = d.code) :
    (cell_at ctx (spec_target_x ctx d) (spec_target_y ctx d) ≠ some CELL_EMPTY ∧
      game_step ctx = some initial_ctx) ∨
    (cell_at ctx (spec_target_x ctx d) (spec_target_y ctx d) = some CELL_EMPTY ∧
      ∃ s, game_step ctx = some s ∧
        s.player_xpos = spec_target_x ctx d ∧ s.player_ypos = spec_target_y ctx d ∧
        s.next_dir = ctx.next_dir ∧
        ∀ x y : Int, 0 ≤ x → x < 24 → 0 ≤ y → y < 14 →
          cell_at s x y =
            if x = spec_target_x ctx d ∧ y = spec_target_y ctx d then some CELL_PLAYER
            else if x = ctx.player_xpos ∧ y = ctx.player_ypos then some CELL_EMPTY
            else cell_at ctx x y) := by
  obtain ⟨hx, hy⟩ := wrap_move_target ctx d hpos hd
  have h := game_step_spec ctx hpos
  rw [hx, hy] at h
  exact h

theorem spec_target_in_bounds (ctx : GameContext) (d : Direction) :
    0 ≤ spec_target_x ctx d ∧ spec_target_x ctx d < 24 ∧
      0 ≤ spec_target_y ctx d ∧ spec_target_y ctx d < 14 := by
  unfold spec_target_x spec_target_y
  omega

theorem spec_target_ne (ctx : GameContext) (d : Direction) (hpos : pos_ok ctx) :
    ¬ (ctx.player_xpos = spec_target_x ctx d ∧ ctx.player_ypos = spec_target_y ctx d) := by
  obtain ⟨h1, h2, h3, h4⟩ := hpos
  unfold spec_target_x spec_target_y spec_delta
  cases d <;> simp only <;> omega

theorem game_step_no_collision (ctx : GameContext) (d : Direction) (hpos : pos_ok ctx)
    (hd : ctx.next_dir = d.code)
    (hempty : cell_at ctx (spec_target_x ctx d) (spec_target_y ctx d) = some CELL_EMPTY) :
    ∃ s, game_step ctx = some s ∧
      cell_at s ctx.player_xpos ctx.player_ypos = some CELL_EMPTY ∧
      cell_at s (spec_target_x ctx d) (spec_target_y ctx d) = some CELL_PLAYER ∧
      s.player_xpos = spec_target_x ctx d ∧ s.player_ypos = spec_target_y ctx d ∧
      s.next_dir = ctx.next_dir ∧
      ∀ x y : Int, 0 ≤ x → x < 24 → 0 ≤ y → y < 14 →
        ¬ (x = ctx.player_xpos ∧ y = ctx.player_ypos) →
        ¬ (x = spec_target_x ctx d ∧ y = spec_target_y ctx d) →
        cell_at s x y = cell_at ctx x y := by
  rcases game_step_dir ctx d hpos hd with ⟨hne, _⟩ | ⟨_, s, e, hx, hy, hdir, hc⟩
  · exact absurd hempty hne
  · obtain ⟨t1, t2, t3, t4⟩ := spec_target_in_bounds ctx d
    have hne := spec_target_ne ctx d hpos
    obtain ⟨p1, p2, p3, p4⟩ := hpos
    refine ⟨s, e, ?_, ?_, hx, hy, hdir, ?_⟩
    · rw [hc _ _ p1 p2 p3 p4, if_neg hne, if_pos ⟨rfl, rfl⟩]
    · rw [hc _ _ t1 t2 t3 t4, if_pos ⟨rfl, rfl⟩]
    · intro x y hx0 hx1 hy0 hy1 hn1 hn2
      rw [hc x y hx0 hx1 hy0 hy1, if_neg hn2, if_neg hn1]

/-- C3: for every prior game context, `game_initialize` produces the same state: the
player position is the grid centre `(12, 7)`, `next_dir` is `DIR_RIGHT`, `cell_at(12, 7)`
is `CELL_PLAYER`, and `cell_at(x, y)` is `CELL_EMPTY` for every other in-bounds `(x, y)`. -/
theorem C3_game_initialize_state (ctx : GameContext) :
    ∃ s, game_initialize ctx = some s ∧ (∀ ctx1, game_initialize ctx1 = some s) ∧
      s.player_xpos = 12 ∧ s.player_ypos = 7 ∧ s.next_dir = Direction.DIR_RIGHT.code ∧
      cell_at s 12 7 = some CELL_PLAYER ∧
      ∀ x y : Int, 0 ≤ x → x < 24 → 0 ≤ y → y < 14 → ¬ (x = 12 ∧ y = 7) →
        cell_at s x y = some CELL_EMPTY := by
  refine ⟨initial_ctx, game_initialize_eq ctx, game_initialize_eq, rfl, rfl, rfl, ?_, ?_⟩
  · rw [initial_ctx_cells 12 7 (by decide) (by decide) (by decide) (by decide),
      if_pos ⟨rfl, rfl⟩]
  · intro x y hx0 hx hy0 hy hne
    rw [initial_ctx_cells x y hx0 hx hy0 hy, if_neg hne]

/-- Witness of C3 at the context `sample_ctx` and the cell `(0, 0)`. -/
theorem C3_game_initialize_state_witness :
    ∃ s, game_initialize sample_ctx = some s ∧ s.player_xpos = 12 ∧ s.player_ypos = 7 ∧
      cell_at s 0 0 = some CELL_EMPTY := by
  obtain ⟨s, e, _, hx, hy, _, _, hc⟩ := C3_game_initialize_state sample_ctx
  exact ⟨s, e, hx, hy, hc 0 0 (by decide) (by decide) (by decide) (by decide) (by decide)⟩

/-- C4: non-collision step. For every game context whose player position is in bounds,
whose `next_dir` is a direction `d` and whose target cell (the position moved one unit in
`d` and wrapped) is `CELL_EMPTY`, `game_step` makes the previous-position cell
`CELL_EMPTY`, makes the target cell `CELL_PLAYER`, sets the player position to the target
and leaves every other cell and `next_dir` unchanged. In particular one `game_step` from
the state after `game_initialize` leaves `(12, 7)` empty, `(13, 7)` occupied by the player
and the player position at `(13, 7)`. -/
theorem C4_game_step_non_collision :
    (∀ (ctx : GameContext) (d : Direction), pos_ok ctx → ctx.next_dir = d.code →
      cell_at ctx (spec_target_x ctx d) (spec_target_y ctx d) = some CELL_EMPTY →
      ∃ s, game_step ctx = some s ∧
        cell_at s ctx.player_xpos ctx.player_ypos = some CELL_EMPTY ∧
        cell_at s (spec_target_x ctx d) (spec_target_y ctx d) = some CELL_PLAYER ∧
        s.player_xpos = spec_target_x ctx d ∧ s.player_ypos = spec_target_y ctx d ∧
        s.next_dir = ctx.next_dir ∧
        ∀ x y : Int, 0 ≤ x → x < 24 → 0 ≤ y → y < 14 →
          ¬ (x = ctx.player_xpos ∧ y = ctx.player_ypos) →
          ¬ (x = spec_target_x ctx d ∧ y = spec_target_y ctx d) →
          cell_at s x y = cell_at ctx x y) ∧
    (∀ ctx0 : GameContext, ∃ s0 s1, game_initialize ctx0 = some s0 ∧
      game_step s0 = some s1 ∧ cell_at s1 12 7 = some CELL_EMPTY ∧
      cell_at s1 13 7 = some CELL_PLAYER ∧ s1.player_xpos = 13 ∧ s1.player_ypos = 7) := by
  refine ⟨game_step_no_collision, ?_⟩
  intro ctx0
  obtain ⟨s1, e, h1, h2, h3, h4, _, _⟩ :=
    game_step_no_collision initial_ctx Direction.DIR_RIGHT (by decide) rfl (by decide)
  exact ⟨initial_ctx, s1, game_initialize_eq ctx0, e, h1, h2, h3, h4⟩

/-- Witness of C4: the general part at the state after `game_initialize`, direction
`DIR_RIGHT`. -/
theorem C4_game_step_non_collision_witness :
    ∃ s, game_step initial_ctx = some s ∧ cell_at s 12 7 = some CELL_EMPTY ∧
      cell_at s 13 7 = some CELL_PLAYER ∧ s.player_xpos = 13 ∧ s.player_ypos = 7 := by
  obtain ⟨s, e, h1, h2, h3, h4, _, _⟩ :=
    C4_game_step_non_collision.1 initial_ctx Direction.DIR_RIGHT (by decide) rfl (by decide)
  exact ⟨s, e, h1, h2, h3, h4⟩

/-- C5: collision reset. For every game context with the player in bounds whose `next_dir`
is a direction `d` and whose target cell (the position moved one unit in `d` and wrapped)
is not `CELL_EMPTY`, the state after `game_step` is exactly the state `game_initialize`
produces: a single occupied centre cell `(12, 7)`, position `(12, 7)`, direction
`DIR_RIGHT`. -/
theorem C5_game_step_collision_reset (ctx : GameContext) (d : Direction) (hpos : pos_ok ctx)
    (hd : ctx.next_dir = d.code)
    (hocc : cell_at ctx (spec_target_x ctx d) (spec_target_y ctx d) ≠ some CELL_EMPTY) :
    ∃ s, game_step ctx = some s ∧ (∀ ctx1, game_initialize ctx1 = some s) ∧
      s.player_xpos = 12 ∧ s.player_ypos = 7 ∧ s.next_dir = Direction.DIR_RIGHT.code ∧
      cell_at s 12 7 = some CELL_PLAYER ∧
      ∀ x y : Int, 0 ≤ x → x < 24 → 0 ≤ y → y < 14 → ¬ (x = 12 ∧ y = 7) →
        cell_at s x y = some CELL_EMPTY := by
  rcases game_step_dir ctx d hpos hd with ⟨_, e⟩ | ⟨hempty, _⟩
  · refine ⟨initial_ctx, e, game_initialize_eq, rfl, rfl, rfl, ?_, ?_⟩
    · rw [initial_ctx_cells 12 7 (by decide) (by decide) (by decide) (by decide),
        if_pos ⟨rfl, rfl⟩]
    · intro x y hx0 hx hy0 hy hne
      rw [initial_ctx_cells x y hx0 hx hy0 hy, if_neg hne]
  · exact absurd hempty hocc

/-- Witness of C5 at `blocked_ctx`: the player at `(12, 7)` moves right into the occupied
cell `(13, 7)`. -/
theorem C5_game_step_collision_reset_witness :
    ∃ s, game_step blocked_ctx = some s ∧ (∀ ctx1, game_initialize ctx1 = some s) ∧
      s.player_xpos = 12 ∧ s.player_ypos = 7 ∧ s.next_dir = Direction.DIR_RIGHT.code ∧
      cell_at s 12 7 = some CELL_PLAYER ∧
      ∀ x y : Int, 0 ≤ x → x < 24 → 0 ≤ y → y < 14 → ¬ (x = 12 ∧ y = 7) →
        cell_at s x y = some CELL_EMPTY :=
  C5_game_step_collision_reset blocked_ctx Direction.DIR_RIGHT (by decide) rfl (by decide)

/-- C6: toroidal move. For every in-bounds player position `(x, y)` and every direction,
the position `game_step` moves to when the target cell is empty (the one its switch and
its two `wrap_around_` calls compute) is `((x + dx) mod 24, (y + dy) mod 14)` with `(dx, dy)` = Right `(+1, 0)`, Up `(0, -1)`,
Left `(-1, 0)`, Down `(0, +1)`; moving left from `x = 0` yields `x = 23`, right from
`x = 23` yields `x = 0`, up from `y = 0` yields `y = 13`, down from `y = 13` yields
`y = 0`, and the axis not moved is unchanged. -/
theorem C6_game_step_toroidal_move (ctx : GameContext) (d : Direction) (hpos : pos_ok ctx)
    (hd : ctx.next_dir = d.code)
    (hempty : cell_at ctx (spec_target_x ctx d) (spec_target_y ctx d) = some CELL_EMPTY) :
    ∃ s, game_step ctx = some s ∧
      s.player_xpos = (wrap_player (move_player ctx)).player_xpos ∧
      s.player_ypos = (wrap_player (move_player ctx)).player_ypos ∧
      s.player_xpos = (ctx.player_xpos + (spec_delta d).1) % 24 ∧
      s.player_ypos = (ctx.player_ypos + (spec_delta d).2) % 14 ∧
      spec_delta Direction.DIR_RIGHT = (1, 0) ∧ spec_delta Direction.DIR_UP = (0, -1) ∧
      spec_delta Direction.DIR_LEFT = (-1, 0) ∧ spec_delta Direction.DIR_DOWN = (0, 1) ∧
      (d = Direction.DIR_LEFT → ctx.player_xpos = 0 → s.player_xpos = 23) ∧
      (d = Direction.DIR_RIGHT → ctx.player_xpos = 23 → s.player_xpos = 0) ∧
      (d = Direction.DIR_UP → ctx.player_ypos = 0 → s.player_ypos = 13) ∧
      (d = Direction.DIR_DOWN → ctx.player_ypos = 13 → s.player_ypos = 0) ∧
      (d = Direction.DIR_LEFT ∨ d = Direction.DIR_RIGHT → s.player_ypos = ctx.player_ypos) ∧
      (d = Direction.DIR_UP ∨ d = Direction.DIR_DOWN → s.player_xpos = ctx.player_xpos) := by
  obtain ⟨s, e, _, _, hx, hy, _, _⟩ := game_step_no_collision ctx d hpos hd hempty
  obtain ⟨wx, wy⟩ := wrap_move_target ctx d hpos hd
  obtain ⟨p1, p2, p3, p4⟩ := hpos
  refine ⟨s, e, by rw [hx, wx], by rw [hy, wy], ?_⟩
  unfold spec_target_x at hx
  unfold spec_target_y at hy
  refine ⟨hx, hy, rfl, rfl, rfl, rfl, ?_, ?_, ?_, ?_, ?_, ?_⟩
  · intro h1 h2
    subst h1
    rw [hx, h2]
    rfl
  · intro h1 h2
    subst h1
    rw [hx, h2]
    rfl
  · intro h1 h2
    subst h1
    rw [hy, h2]
    rfl
  · intro h1 h2
    subst h1
    rw [hy, h2]
    rfl
  · intro h1
    rw [hy]
    rcases h1 with h1 | h1 <;> subst h1 <;> simp only [spec_delta] <;> omega
  · intro h1
    rw [hx]
    rcases h1 with h1 | h1 <;> subst h1 <;> simp only [spec_delta] <;> omega

/-- Witness of C6: moving left from `x = 0` in the all-zero context. -/
theorem C6_game_step_toroidal_move_witness :
    ∃ s, game_step (player_redir zero_ctx Direction.DIR_LEFT) = some s ∧
      s.player_xpos = 23 ∧ s.player_ypos = 0 := by
  obtain ⟨s, e, _, _, _, _, _, _, _, _, h, _, _, _, h2, _⟩ :=
    C6_game_step_toroidal_move (player_redir zero_ctx Direction.DIR_LEFT) Direction.DIR_LEFT
      (by decide) rfl (by decide)
  exact ⟨s, e, h rfl rfl, h2 (Or.inl rfl)⟩

/-- C7: position invariant. `0 <= player_xpos < 24` and `0 <= player_ypos < 14` holds after
`game_initialize` from any state, and is preserved by `game_step` (on the collision and on
the non-collision path, whatever `next_dir` holds) and by `player_redir` for every
direction. -/
theorem C7_position_invariant :
    (∀ ctx : GameContext, ∃ s, game_initialize ctx = some s ∧ pos_ok s) ∧
    (∀ ctx : GameContext, pos_ok ctx → ∃ s, game_step ctx = some s ∧ pos_ok s) ∧
    (∀ (ctx : GameContext) (d : Direction), pos_ok ctx → pos_ok (player_redir ctx d)) := by
  refine ⟨?_, ?_, ?_⟩
  · intro ctx
    exact ⟨initial_ctx, game_initialize_eq ctx, by decide⟩
  · intro ctx hpos
    have ht := wrap_player_pos_ok (move_player ctx)
    rcases game_step_spec ctx hpos with ⟨_, e⟩ | ⟨_, s, e, hx, hy, _, _⟩
    · exact ⟨initial_ctx, e, by decide⟩
    · refine ⟨s, e, ?_⟩
      unfold pos_ok at ht ⊢
      rw [hx, hy]
      exact ht
  · intro ctx d hpos
    exact hpos

/-- Witness of C7: one `game_step` from `sample_ctx` (player at `(3, 13)`, moving left). -/
theorem C7_position_invariant_witness :
    pos_ok sample_ctx ∧ ∃ s, game_step sample_ctx = some s ∧ pos_ok s :=
  ⟨by decide, C7_position_invariant.2.1 sample_ctx (by decide)⟩

theorem to_char_code (d : Direction) : to_char d.code = d.code := by
  cases d <;> rfl

theorem lone_player_step (s : GameContext) (d : Direction) (px py : Int)
    (hx0 : 0 ≤ px) (hx : px < 24) (hy0 : 0 ≤ py) (hy : py < 14)
    (hl : lone_player s px py) (hd : s.next_dir = d.code) :
    ∃ s1, game_step s = some s1 ∧
      lone_player s1 ((px + (spec_delta d).1) % 24) ((py + (spec_delta d).2) % 14) ∧
      s1.next_dir = d.code := by
  obtain ⟨ex, ey, hc⟩ := hl
  have hpos : pos_ok s := by
    unfold pos_ok
    rw [ex, ey]
    exact ⟨hx0, hx, hy0, hy⟩
  obtain ⟨t1, t2, t3, t4⟩ := spec_target_in_bounds s d
  have hne := spec_target_ne s d hpos
  have htx : spec_target_x s d = (px + (spec_delta d).1) % 24 := by
    unfold spec_target_x
    rw [ex]
  have hty : spec_target_y s d = (py + (spec_delta d).2) % 14 := by
    unfold spec_target_y
    rw [ey]
  have hempty : cell_at s (spec_target_x s d) (spec_target_y s d) = some CELL_EMPTY := by
    rw [hc _ _ t1 t2 t3 t4, if_neg]
    intro h
    exact hne ⟨by rw [ex]; exact h.1.symm, by rw [ey]; exact h.2.symm⟩
  rcases game_step_dir s d hpos hd with ⟨hn, _⟩ | ⟨_, s1, e, h1, h2, h3, h4⟩
  · exact absurd hempty hn
  · refine ⟨s1, e, ⟨by rw [h1, htx], by rw [h2, hty], ?_⟩, by rw [h3, hd]⟩
    intro x y a1 a2 a3 a4
    rw [h4 x y a1 a2 a3 a4, ← htx, ← hty]
    by_cases hT : x = spec_target_x s d ∧ y = spec_target_y s d
    · rw [if_pos hT, if_pos hT]
    · rw [if_neg hT, if_neg hT]
      by_cases hP : x = s.player_xpos ∧ y = s.player_ypos
      · rw [if_pos hP]
      · rw [if_neg hP, hc x y a1 a2 a3 a4, if_neg]
        rw [← ex, ← ey]
        exact hP

theorem lone_player_steps (d : Direction) (n : Nat) :
    ∀ (s : GameContext) (px py : Int), 0 ≤ px → px < 24 → 0 ≤ py → py < 14 →
      lone_player s px py → s.next_dir = d.code →
      ∃ s1, game_steps n s = some s1 ∧
        lone_player s1 ((px + (n : Int) * (spec_delta d).1) % 24)
          ((py + (n : Int) * (spec_delta d).2) % 14) ∧
        s1.next_dir = d.code := by
  induction n with
  | zero =>
    intro s px py hx0 hx hy0 hy hl hd
    refine ⟨s, rfl, ?_, hd⟩
    have e1 : (px + ((0 : Nat) : Int) * (spec_delta d).1) % 24 = px := by
      simp only [Nat.cast_zero, zero_mul, add_zero]
      omega
    have e2 : (py + ((0 : Nat) : Int) * (spec_delta d).2) % 14 = py := by
      simp only [Nat.cast_zero, zero_mul, add_zero]
      omega
    rw [e1, e2]
    exact hl
  | succ n ih =>
    intro s px py hx0 hx hy0 hy hl hd
    obtain ⟨s1, e1, hl1, hd1⟩ := lone_player_step s d px py hx0 hx hy0 hy hl hd
    obtain ⟨s2, e2, hl2, hd2⟩ :=
      ih s1 _ _ (by omega) (by omega) (by omega) (by omega) hl1 hd1
    refine ⟨s2, ?_, ?_, hd2⟩
    · show (match game_step s with
        | none => none
        | some ctx1 => game_steps n ctx1) = some s2
      rw [e1]
      exact e2
    · have a1 : ((px + (spec_delta d).1) % 24 + (n : Int) * (spec_delta d).1) % 24 =
          (px + ((n + 1 : Nat) : Int) * (spec_delta d).1) % 24 := by
        cases d <;> simp only [spec_delta] <;> push_cast <;> omega
      have a2 : ((py + (spec_delta d).2) % 14 + (n : Int) * (spec_delta d).2) % 14 =
          (py + ((n + 1 : Nat) : Int) * (spec_delta d).2) % 14 := by
        cases d <;> simp only [spec_delta] <;> push_cast <;> omega
      rw [← a1, ← a2]
      exact hl2

theorem lone_player_redir (d : Direction) : lone_player (player_redir initial_ctx d) 12 7 := by
  refine ⟨rfl, rfl, ?_⟩
  intro x y hx0 hx hy0 hy
  rw [cell_at_congr initial_ctx (player_redir initial_ctx d) rfl x y hx0 hx hy0 hy]
  exact initial_ctx_cells x y hx0 hx hy0 hy

/-- C8: fixed delta under no input. For every direction `d` with delta `(dx, dy)` and every
`n`, starting from the state produced by `game_initialize` followed by `player_redir(d)`,
`n` consecutive calls of `game_step` succeed and leave the player at
`((12 + n*dx) mod 24, (7 + n*dy) mod 14)` with `next_dir` still `d`; the next call moves
the player by the same delta modulo the grid size. -/
theorem C8_game_steps_fixed_delta (ctx0 : GameContext) (d : Direction) (n : Nat) :
    ∃ s0 s s1, game_initialize ctx0 = some s0 ∧
      game_steps n (player_redir s0 d) = some s ∧
      s.player_xpos = (12 + (n : Int) * (spec_delta d).1) % 24 ∧
      s.player_ypos = (7 + (n : Int) * (spec_delta d).2) % 14 ∧
      s.next_dir = d.code ∧
      game_step s = some s1 ∧
      s1.player_xpos = (s.player_xpos + (spec_delta d).1) % 24 ∧
      s1.player_ypos = (s.player_ypos + (spec_delta d).2) % 14 ∧
      s1.next_dir = d.code := by
  obtain ⟨s, e, hl, hd⟩ :=
    lone_player_steps d n (player_redir initial_ctx d) 12 7 (by decide) (by decide)
      (by decide) (by decide) (lone_player_redir d) (to_char_code d)
  obtain ⟨s1, e1, hl1, hd1⟩ :=
    lone_player_step s d _ _ (by omega) (by omega) (by omega) (by omega) hl hd
  refine ⟨initial_ctx, s, s1, game_initialize_eq ctx0, e, hl.1, hl.2.1, hd, e1, ?_, ?_, hd1⟩
  · rw [hl1.1, hl.1]
  · rw [hl1.2.1, hl.2.1]

theorem cells_ok_initial : cells_ok initial_ctx := by
  intro x y hx0 hx hy0 hy
  rw [initial_ctx_cells x y hx0 hx hy0 hy]
  by_cases h : x = 12 ∧ y = 7
  · exact ⟨CELL_PLAYER, by rw [if_pos h], by decide⟩
  · exact ⟨CELL_EMPTY, by rw [if_neg h], by decide⟩

theorem cells_ok_step (ctx : GameContext) (hc : cells_ok ctx) (hpos : pos_ok ctx) :
    ∃ s, game_step ctx = some s ∧ cells_ok s ∧ pos_ok s := by
  have ht := wrap_player_pos_ok (move_player ctx)
  rcases game_step_spec ctx hpos with ⟨_, e⟩ | ⟨_, s, e, hx, hy, _, hcell⟩
  · exact ⟨initial_ctx, e, cells_ok_initial, by decide⟩
  · refine ⟨s, e, ?_, ?_⟩
    · intro x y hx0 hx1 hy0 hy1
      rw [hcell x y hx0 hx1 hy0 hy1]
      split_ifs
      · exact ⟨CELL_PLAYER, rfl, by decide⟩
      · exact ⟨CELL_EMPTY, rfl, by decide⟩
      · exact hc x y hx0 hx1 hy0 hy1
    · unfold pos_ok at ht ⊢
      rw [hx, hy]
      exact ht

theorem cells_ok_redir (ctx : GameContext) (d : Direction) (hc : cells_ok ctx) :
    cells_ok (player_redir ctx d) := by
  intro x y hx0 hx hy0 hy
  rw [cell_at_congr ctx (player_redir ctx d) rfl x y hx0 hx hy0 hy]
  exact hc x y hx0 hx hy0 hy

theorem reachable_ok (s : GameContext) (h : Reachable s) : cells_ok s ∧ pos_ok s := by
  induction h with
  | init ctx s e =>
    rw [game_initialize_eq, Option.some.injEq] at e
    subst e
    exact ⟨cells_ok_initial, by decide⟩
  | step s s1 _ e ih =>
    obtain ⟨s2, e2, h1, h2⟩ := cells_ok_step s ih.1 ih.2
    rw [e2, Option.some.injEq] at e
    subst e
    exact ⟨h1, h2⟩
  | redir s d _ ih => exact ⟨cells_ok_redir s d ih.1, ih.2⟩
  | restart s s1 _ e _ =>
    rw [game_initialize_eq, Option.some.injEq] at e
    subst e
    exact ⟨cells_ok_initial, by decide⟩

/-- C9: cell-range invariant. If every in-bounds cell of a game context holds a value in
`[0, 5]` and the player is in bounds, then after `game_initialize`, after `game_step` and
after `player_redir` every in-bounds cell again holds a value in `[0, 5]`; hence every
state reachable from `game_initialize` satisfies it. -/
theorem C9_cell_range_invariant :
    (∀ ctx : GameContext, cells_ok ctx → pos_ok ctx →
      (∃ s, game_initialize ctx = some s ∧ cells_ok s) ∧
      (∃ s, game_step ctx = some s ∧ cells_ok s) ∧
      (∀ d : Direction, cells_ok (player_redir ctx d))) ∧
    (∀ s : GameContext, Reachable s → cells_ok s) := by
  refine ⟨?_, fun s h => (reachable_ok s h).1⟩
  intro ctx hc hpos
  refine ⟨⟨initial_ctx, game_initialize_eq ctx, cells_ok_initial⟩, ?_, ?_⟩
  · obtain ⟨s, e, h, _⟩ := cells_ok_step ctx hc hpos
    exact ⟨s, e, h⟩
  · intro d
    exact cells_ok_redir ctx d hc

/-- Witness of C9 at the state after `game_initialize`: its cells are in range, the player
is in bounds, and the cells are in range again after one `game_step`. -/
theorem C9_cell_range_invariant_witness :
    cells_ok initial_ctx ∧ pos_ok initial_ctx ∧
      ∃ s, game_step initial_ctx = some s ∧ cells_ok s :=
  ⟨cells_ok_initial, by decide,
    (C9_cell_range_invariant.1 initial_ctx cells_ok_initial (by decide)).2.1⟩

/-- C10: `player_redir(d)` only stores the direction. For every game context and direction
`d` it sets `next_dir` to `d` and leaves the grid bytes, every in-bounds cell and the
player position unchanged; and `player_redir(d2)` after `player_redir(d1)` gives the same
state as `player_redir(d2)` alone. -/
theorem C10_player_redir_frame (ctx : GameContext) (d d1 d2 : Direction) :
    (player_redir ctx d).next_dir = d.code ∧
      (player_redir ctx d).cells = ctx.cells ∧
      (player_redir ctx d).player_xpos = ctx.player_xpos ∧
      (player_redir ctx d).player_ypos = ctx.player_ypos ∧
      (∀ x y : Int, 0 ≤ x → x < 24 → 0 ≤ y → y < 14 →
        cell_at (player_redir ctx d) x y = cell_at ctx x y) ∧
      player_redir (player_redir ctx d1) d2 = player_redir ctx d2 := by
  refine ⟨to_char_code d, rfl, rfl, rfl, ?_, rfl⟩
  intro x y hx0 hx hy0 hy
  exact cell_at_congr ctx (player_redir ctx d) rfl x y hx0 hx hy0 hy

/-! ## The logic loop of `SDL_AppIterate` -/

theorem game_step_pos_ok (ctx : GameContext) (hpos : pos_ok ctx) :
    ∃ s, game_step ctx = some s ∧ pos_ok s := by
  have ht := wrap_player_pos_ok (move_player ctx)
  rcases game_step_spec ctx hpos with ⟨_, e⟩ | ⟨_, s, e, hx, hy, _, _⟩
  · exact ⟨initial_ctx, e, by decide⟩
  · refine ⟨s, e, ?_⟩
    unfold pos_ok at ht ⊢
    rw [hx, hy]
    exact ht

theorem sub_u64_step (now last : Nat) (h : sub_u64 now last ≥ 125) :
    sub_u64 now (add_u64 last 125) = sub_u64 now last - 125 := by
  unfold sub_u64 add_u64 at *
  omega

theorem add_u64_step (last n : Nat) :
    add_u64 (add_u64 last 125) (125 * n) = add_u64 last (125 * (n + 1)) := by
  unfold add_u64
  omega

theorem loop_unfold (now : Nat) (as : AppState) :
    SDL_AppIterate_loop now as =
      if sub_u64 now as.last_step ≥ STEP_RATE_IN_MILLISECONDS then
        match game_step as.game_ctx with
        | none => none
        | some ctx1 =>
          match SDL_AppIterate_loop now
              { game_ctx := ctx1,
                last_step := add_u64 as.last_step STEP_RATE_IN_MILLISECONDS } with
          | none => none
          | some (as1, n) => some (as1, n + 1)
      else some (as, 0) := by
  unfold SDL_AppIterate_loop
  rw [catch_up_loop]

theorem loop_runs (now : Nat) (n : Nat) :
    ∀ as : AppState, as.last_step < 18446744073709551616 → pos_ok as.game_ctx →
      sub_u64 now as.last_step / 125 = n →
      ∃ c, game_steps n as.game_ctx = some c ∧ pos_ok c ∧
        SDL_AppIterate_loop now as =
          some ({ game_ctx := c, last_step := add_u64 as.last_step (125 * n) }, n) ∧
        sub_u64 now (add_u64 as.last_step (125 * n)) = sub_u64 now as.last_step % 125 := by
  induction n with
  | zero =>
    intro as hl hpos hq
    have hlt : ¬ (sub_u64 now as.last_step ≥ STEP_RATE_IN_MILLISECONDS) := by
      unfold STEP_RATE_IN_MILLISECONDS
      omega
    have e0 : add_u64 as.last_step (125 * 0) = as.last_step := by
      unfold add_u64
      omega
    refine ⟨as.game_ctx, rfl, hpos, ?_, ?_⟩
    · rw [loop_unfold, if_neg hlt, e0]
    · rw [e0]
      omega
  | succ n ih =>
    intro as hl hpos hq
    have hge : sub_u64 now as.last_step ≥ 125 := by omega
    obtain ⟨c1, e1, hp1⟩ := game_step_pos_ok as.game_ctx hpos
    have hd := sub_u64_step now as.last_step hge
    obtain ⟨c, e2, hp2, e3, e4⟩ :=
      ih { game_ctx := c1, last_step := add_u64 as.last_step 125 }
        (by show add_u64 as.last_step 125 < 18446744073709551616; unfold add_u64; omega)
        hp1 (by show sub_u64 now (add_u64 as.last_step 125) / 125 = n; omega)
    simp only [add_u64_step] at e3 e4
    refine ⟨c, ?_, hp2, ?_, ?_⟩
    · show (match game_step as.game_ctx with
        | none => none
        | some ctx1 => game_steps n ctx1) = some c
      rw [e1]
      exact e2
    · rw [loop_unfold, if_pos (by unfold STEP_RATE_IN_MILLISECONDS; exact hge), e1]
      simp only [STEP_RATE_IN_MILLISECONDS]
      rw [e3]
    · rw [e4, hd]
      omega

/-- C11: fixed-timestep catch-up. For every clock value `now` (a `Uint64`) and every
`last_step` with `now >= last_step`, on a context with the player in bounds, the logic
loop of `SDL_AppIterate` runs exactly `floor((now - last_step) / 125)` iterations, each
calling `game_step` once, and ends with
`last_step + 125 * floor((now - last_step) / 125)`, which is at most `now` and less than
125 behind it. -/
theorem C11_fixed_timestep_catch_up (now : Nat) (as : AppState)
    (hnow : now < 18446744073709551616) (hge : as.last_step ≤ now)
    (hpos : pos_ok as.game_ctx) :
    ∃ c, game_steps ((now - as.last_step) / 125) as.game_ctx = some c ∧
      SDL_AppIterate_loop now as =
        some ({ game_ctx := c,
                last_step := as.last_step + 125 * ((now - as.last_step) / 125) },
              (now - as.last_step) / 125) ∧
      as.last_step + 125 * ((now - as.last_step) / 125) ≤ now ∧
      now - (as.last_step + 125 * ((now - as.last_step) / 125)) < 125 ∧
      STEP_RATE_IN_MILLISECONDS = 125 := by
  have hs : sub_u64 now as.last_step = now - as.last_step := by
    unfold sub_u64
    omega
  obtain ⟨c, e1, _, e2, _⟩ :=
    loop_runs now ((now - as.last_step) / 125) as (by omega) hpos (by rw [hs])
  have ha : add_u64 as.last_step (125 * ((now - as.last_step) / 125)) =
      as.last_step + 125 * ((now - as.last_step) / 125) := by
    unfold add_u64
    omega
  rw [ha] at e2
  exact ⟨c, e1, e2, by omega, by omega, rfl⟩

/-- Witness of C11: `now = 1060`, `last_step = 0` from the state after `game_initialize`:
eight steps, and `last_step` ends at 1000, not at `now`. -/
theorem C11_fixed_timestep_catch_up_witness :
    ∃ c, game_steps 8 initial_ctx = some c ∧
      SDL_AppIterate_loop 1060 { game_ctx := initial_ctx, last_step := 0 } =
        some ({ game_ctx := c, last_step := 1000 }, 8) := by
  obtain ⟨c, e1, e2, _⟩ :=
    C11_fixed_timestep_catch_up 1060 { game_ctx := initial_ctx, last_step := 0 }
      (by decide) (by decide) (by decide)
  exact ⟨c, e1, e2⟩

/-- C19: the catch-up loop of `SDL_AppIterate` terminates for every pair of 64-bit
unsigned values `now` and `last_step`, including `now < last_step`: the loop function is
total, the wrapped difference `(now - last_step) mod 2^64` decreases by exactly 125 on
each iteration, the loop runs exactly `floor(((now - last_step) mod 2^64) / 125)` times
and exits with `(now - last_step') mod 2^64 < 125`. -/
theorem C19_catch_up_loop_terminates (now : Nat) (as : AppState)
    (hlast : as.last_step < 18446744073709551616) (hpos : pos_ok as.game_ctx) :
    sub_u64 now as.last_step =
        (now + 18446744073709551616 - as.last_step) % 18446744073709551616 ∧
      (∀ l : Nat, sub_u64 now l ≥ 125 →
        sub_u64 now (add_u64 l 125) + 125 = sub_u64 now l) ∧
      ∃ c, game_steps (sub_u64 now as.last_step / 125) as.game_ctx = some c ∧
        SDL_AppIterate_loop now as =
          some ({ game_ctx := c,
                  last_step :=
                    (as.last_step + 125 * (sub_u64 now as.last_step / 125))
                      % 18446744073709551616 },
                sub_u64 now as.last_step / 125) ∧
        sub_u64 now
            ((as.last_step + 125 * (sub_u64 now as.last_step / 125))
              % 18446744073709551616) < 125 := by
  refine ⟨?_, ?_, ?_⟩
  · unfold sub_u64
    omega
  · intro l hl
    rw [sub_u64_step now l hl]
    omega
  · obtain ⟨c, e1, _, e2, e3⟩ :=
      loop_runs now (sub_u64 now as.last_step / 125) as hlast hpos rfl
    have ha : ∀ n, add_u64 as.last_step n = (as.last_step + n) % 18446744073709551616 := by
      intro n
      unfold add_u64
      rfl
    rw [ha] at e2 e3
    exact ⟨c, e1, e2, by rw [e3]; omega⟩

/-- Witness of C19 with `now < last_step`: `now = 100`, `last_step = 2^64 - 616`; the
wrapped difference is 716, the loop runs five times and `last_step` wraps around to 9. -/
theorem C19_catch_up_loop_terminates_witness :
    ∃ c, game_steps 5 initial_ctx = some c ∧
      SDL_AppIterate_loop 100
          { game_ctx := initial_ctx, last_step := 18446744073709551000 } =
        some ({ game_ctx := c, last_step := 9 }, 5) := by
  obtain ⟨_, _, c, e1, e2, _⟩ :=
    C19_catch_up_loop_terminates 100
      { game_ctx := initial_ctx, last_step := 18446744073709551000 } (by decide) (by decide)
  exact ⟨c, e1, e2⟩

/-! ## Keyboard input -/

theorem handle_key_event_redir (ctx : GameContext) (d : Direction) :
    (player_redir ctx d).next_dir = d.code ∧ (player_redir ctx d).cells = ctx.cells ∧
      (player_redir ctx d).player_xpos = ctx.player_xpos ∧
      (player_redir ctx d).player_ypos = ctx.player_ypos :=
  ⟨to_char_code d, rfl, rfl, rfl⟩

/-- C12: key dispatch. For every game context and scancode, `handle_key_event_` returns
`SDL_APP_SUCCESS` if and only if the scancode is Escape or Q, and then leaves the state
unchanged; for R it returns continue with the state `game_initialize` produces; for the
Right/Up/Left/Down arrow it returns continue with `next_dir` set to
`DIR_RIGHT`/`DIR_UP`/`DIR_LEFT`/`DIR_DOWN` and grid and position unchanged; for every
other scancode it returns continue with the state unchanged. -/
theorem C12_handle_key_event_dispatch (ctx : GameContext) (key_code : SDL_Scancode) :
    (∃ r s, handle_key_event_ ctx key_code = some (r, s) ∧
      (r = SDL_AppResult.SDL_APP_SUCCESS ↔
        key_code = SDL_Scancode.SDL_SCANCODE_ESCAPE ∨
          key_code = SDL_Scancode.SDL_SCANCODE_Q) ∧
      (r = SDL_AppResult.SDL_APP_SUCCESS ∨ r = SDL_AppResult.SDL_APP_CONTINUE) ∧
      (r = SDL_AppResult.SDL_APP_SUCCESS → s = ctx) ∧
      (key_code = SDL_Scancode.SDL_SCANCODE_R → game_initialize ctx = some s) ∧
      (key_code = SDL_Scancode.SDL_SCANCODE_RIGHT →
        s.next_dir = Direction.DIR_RIGHT.code ∧ s.cells = ctx.cells ∧
          s.player_xpos = ctx.player_xpos ∧ s.player_ypos = ctx.player_ypos) ∧
      (key_code = SDL_Scancode.SDL_SCANCODE_UP →
        s.next_dir = Direction.DIR_UP.code ∧ s.cells = ctx.cells ∧
          s.player_xpos = ctx.player_xpos ∧ s.player_ypos = ctx.player_ypos) ∧
      (key_code = SDL_Scancode.SDL_SCANCODE_LEFT →
        s.next_dir = Direction.DIR_LEFT.code ∧ s.cells = ctx.cells ∧
          s.player_xpos = ctx.player_xpos ∧ s.player_ypos = ctx.player_ypos) ∧
      (key_code = SDL_Scancode.SDL_SCANCODE_DOWN →
        s.next_dir = Direction.DIR_DOWN.code ∧ s.cells = ctx.cells ∧
          s.player_xpos = ctx.player_xpos ∧ s.player_ypos = ctx.player_ypos) ∧
      (∀ code, key_code = SDL_Scancode.other code → s = ctx)) := by
  cases key_code with
  | SDL_SCANCODE_ESCAPE =>
    exact ⟨_, _, rfl, by simp, by simp, by simp, by simp, by simp, by simp, by simp,
      by simp, by simp⟩
  | SDL_SCANCODE_Q =>
    exact ⟨_, _, rfl, by simp, by simp, by simp, by simp, by simp, by simp, by simp,
      by simp, by simp⟩
  | SDL_SCANCODE_R =>
    have h : handle_key_event_ ctx SDL_Scancode.SDL_SCANCODE_R =
        some (SDL_AppResult.SDL_APP_CONTINUE, initial_ctx) := by
      unfold handle_key_event_
      simp only [game_initialize_eq]
    exact ⟨SDL_AppResult.SDL_APP_CONTINUE, initial_ctx, h, by simp, by simp, by simp,
      fun _ => game_initialize_eq ctx, by simp, by simp, by simp, by simp, by simp⟩
  | SDL_SCANCODE_RIGHT =>
    exact ⟨_, _, rfl, by simp, by simp, by simp, by simp,
      fun _ => handle_key_event_redir ctx _, by simp, by simp, by simp, by simp⟩
  | SDL_SCANCODE_UP =>
    exact ⟨_, _, rfl, by simp, by simp, by simp, by simp, by simp,
      fun _ => handle_key_event_redir ctx _, by simp, by simp, by simp⟩
  | SDL_SCANCODE_LEFT =>
    exact ⟨_, _, rfl, by simp, by simp, by simp, by simp, by simp, by simp,
      fun _ => handle_key_event_redir ctx _, by simp, by simp⟩
  | SDL_SCANCODE_DOWN =>
    exact ⟨_, _, rfl, by simp, by simp, by simp, by simp, by simp, by simp, by simp,
      fun _ => handle_key_event_redir ctx _, by simp⟩
  | other code =>
    exact ⟨_, _, rfl, by simp, by simp, by simp, by simp, by simp, by simp, by simp,
      by simp, by simp⟩

/-- Witness of C12: the Right arrow on `sample_ctx` and the Escape key. -/
theorem C12_handle_key_event_dispatch_witness :
    (∃ r s, handle_key_event_ sample_ctx SDL_Scancode.SDL_SCANCODE_RIGHT = some (r, s) ∧
      r ≠ SDL_AppResult.SDL_APP_SUCCESS ∧ s.next_dir = Direction.DIR_RIGHT.code ∧
      s.cells = sample_ctx.cells) ∧
    (∃ r s, handle_key_event_ sample_ctx SDL_Scancode.SDL_SCANCODE_ESCAPE = some (r, s) ∧
      r = SDL_AppResult.SDL_APP_SUCCESS ∧ s = sample_ctx) := by
  obtain ⟨r, s, e, h1, _, _, _, h2, _⟩ :=
    C12_handle_key_event_dispatch sample_ctx SDL_Scancode.SDL_SCANCODE_RIGHT
  obtain ⟨r1, s1, e1, g1, _, g2, _⟩ :=
    C12_handle_key_event_dispatch sample_ctx SDL_Scancode.SDL_SCANCODE_ESCAPE
  refine ⟨⟨r, s, e, ?_, (h2 rfl).1, (h2 rfl).2.1⟩, ⟨r1, s1, e1, ?_, ?_⟩⟩
  · intro hr
    have := h1.mp hr
    simp at this
  · exact g1.mpr (Or.inl rfl)
  · exact g2 (g1.mpr (Or.inl rfl))

/-! ## The assertion macros -/

theorem assertion_failed_fmt_exits (file : String) (line : Int)
    (expected_expr actual_expr op fmt : String) (expected actual : Int) :
    ∃ err, assertion_failed_fmt file line expected_expr actual_expr op fmt expected actual =
      Outcome.exits 1 err ∧ err ≠ [] :=
  ⟨_, rfl, by simp⟩

theorem c_assert_compare_pass (file : String) (line : Int) (expected_expr actual_expr : String)
    (cmp : Int → Int → Bool) (op fmt : String) (expected actual : Int)
    (h : cmp expected actual = true) :
    _c_assert_compare file line expected_expr actual_expr cmp op fmt expected actual =
      Outcome.returns true [] := by
  unfold _c_assert_compare
  rw [if_pos h]

theorem c_assert_compare_fail (file : String) (line : Int) (expected_expr actual_expr : String)
    (cmp : Int → Int → Bool) (op fmt : String) (expected actual : Int)
    (h : cmp expected actual = false) :
    ∃ err, _c_assert_compare file line expected_expr actual_expr cmp op fmt expected actual =
      Outcome.exits 1 err ∧ err ≠ [] := by
  unfold _c_assert_compare
  rw [if_neg (by rw [h]; decide)]
  exact ⟨_, rfl, by simp⟩

theorem c_assert_compare_report (file : String) (line : Int)
    (expected_expr actual_expr : String) (cmp : Int → Int → Bool) (op fmt : String)
    (expected actual : Int) (h : cmp expected actual = false) :
    _c_assert_compare file line expected_expr actual_expr cmp op fmt expected actual =
      Outcome.exits 1
        [{ fmt := "Assertion failed: %s:%d\n",
           args := [PrintArg.str file, PrintArg.int line] },
         { fmt := "Expected: %s %s %s\n",
           args := [PrintArg.str expected_expr, PrintArg.str op, PrintArg.str actual_expr] },
         { fmt := "Values  : ", args := [] },
         { fmt := fmt, args := [PrintArg.int expected] },
         { fmt := " %s ", args := [PrintArg.str op] },
         { fmt := fmt, args := [PrintArg.int actual] },
         { fmt := "\n", args := [] }] := by
  unfold _c_assert_compare
  rw [if_neg (by rw [h]; decide)]
  rfl

/-- C13: for all ints `e` and `a`, `c_assert_int_eq(e, a)` evaluates to `true` without
terminating and without output if and only if `e == a`; when `e != a` it terminates the
process with status 1 after exactly the seven `fprintf(stderr, ...)` calls of the mismatch
report (file and line, the two expressions around `==`, and the two values, each under
`%d`), so it never evaluates to `false`. `c_assert_int_eq(2+2, 4)` is `true` with no
output; `c_assert_int_eq(2+2, 5)` reports the values 4 and 5 and terminates. -/
theorem C13_c_assert_int_eq (file : String) (line : Int) (expected_expr actual_expr : String)
    (e a : Int) :
    (c_assert_int_eq file line expected_expr actual_expr e a = Outcome.returns true [] ↔
      e = a) ∧
    (e ≠ a →
      c_assert_int_eq file line expected_expr actual_expr e a =
        Outcome.exits 1
          [{ fmt := "Assertion failed: %s:%d\n",
             args := [PrintArg.str file, PrintArg.int line] },
           { fmt := "Expected: %s %s %s\n",
             args := [PrintArg.str expected_expr, PrintArg.str "==",
               PrintArg.str actual_expr] },
           { fmt := "Values  : ", args := [] },
           { fmt := "%d", args := [PrintArg.int e] },
           { fmt := " %s ", args := [PrintArg.str "=="] },
           { fmt := "%d", args := [PrintArg.int a] },
           { fmt := "\n", args := [] }]) ∧
    ((∃ err, c_assert_int_eq file line expected_expr actual_expr e a =
        Outcome.exits 1 err ∧ err ≠ []) ↔ e ≠ a) ∧
    (∀ (st : Int) (err : List Fprintf),
      c_assert_int_eq file line expected_expr actual_expr e a = Outcome.exits st err →
        st = 1 ∧ e ≠ a) ∧
    (∀ err, c_assert_int_eq file line expected_expr actual_expr e a ≠
      Outcome.returns false err) ∧
    c_assert_int_eq file line "2+2" "4" (2 + 2) 4 = Outcome.returns true [] ∧
    c_assert_int_eq file line "2+2" "5" (2 + 2) 5 =
      Outcome.exits 1
        [{ fmt := "Assertion failed: %s:%d\n",
           args := [PrintArg.str file, PrintArg.int line] },
         { fmt := "Expected: %s %s %s\n",
           args := [PrintArg.str "2+2", PrintArg.str "==", PrintArg.str "5"] },
         { fmt := "Values  : ", args := [] },
         { fmt := "%d", args := [PrintArg.int 4] },
         { fmt := " %s ", args := [PrintArg.str "=="] },
         { fmt := "%d", args := [PrintArg.int 5] },
         { fmt := "\n", args := [] }] := by
  have hpass : e = a →
      c_assert_int_eq file line expected_expr actual_expr e a = Outcome.returns true [] :=
    fun h => c_assert_compare_pass _ _ _ _ _ _ _ _ _ (decide_eq_true h)
  have hrep := fun h : e ≠ a =>
    c_assert_compare_report file line expected_expr actual_expr
      (fun x y => decide (x = y)) "==" "%d" e a (decide_eq_false h)
  have hfail : e ≠ a →
      ∃ err, c_assert_int_eq file line expected_expr actual_expr e a =
        Outcome.exits 1 err ∧ err ≠ [] :=
    fun h => ⟨_, hrep h, by simp⟩
  refine ⟨⟨?_, hpass⟩, hrep, ⟨?_, hfail⟩, ?_, ?_, ?_, ?_⟩
  · intro h
    by_contra hne
    obtain ⟨err, e1, _⟩ := hfail hne
    rw [e1] at h
    cases h
  · rintro ⟨err, e1, _⟩ heq
    rw [hpass heq] at e1
    cases e1
  · intro st err h
    by_cases heq : e = a
    · rw [hpass heq] at h
      cases h
    · obtain ⟨err1, e1, _⟩ := hfail heq
      rw [e1] at h
      cases h
      exact ⟨rfl, heq⟩
  · intro err h
    by_cases heq : e = a
    · rw [hpass heq] at h
      cases h
    · obtain ⟨err1, e1, _⟩ := hfail heq
      rw [e1] at h
      cases h
  · exact c_assert_compare_pass _ _ _ _ _ _ _ _ _ (by decide)
  · exact c_assert_compare_report file line "2+2" "5" (fun x y => decide (x = y)) "==" "%d"
      (2 + 2) 5 (by decide)

/-- Witness of C13 at `e = 4`, `a = 5` in `test.c`, line 10: the full report. -/
theorem C13_c_assert_int_eq_witness :
    c_assert_int_eq "test.c" 10 "2+2" "5" 4 5 =
      Outcome.exits 1
        [{ fmt := "Assertion failed: %s:%d\n",
           args := [PrintArg.str "test.c", PrintArg.int 10] },
         { fmt := "Expected: %s %s %s\n",
           args := [PrintArg.str "2+2", PrintArg.str "==", PrintArg.str "5"] },
         { fmt := "Values  : ", args := [] },
         { fmt := "%d", args := [PrintArg.int 4] },
         { fmt := " %s ", args := [PrintArg.str "=="] },
         { fmt := "%d", args := [PrintArg.int 5] },
         { fmt := "\n", args := [] }] :=
  (C13_c_assert_int_eq "test.c" 10 "2+2" "5" 4 5).2.1 (by decide)

/-- C18: `c_assert_true(v)` passes (evaluates to `true` without terminating) exactly when
the integer `v` equals 1, and `c_assert_false(v)` passes exactly when `v` equals 0; for
every integer `v` other than 0 and 1, for example 2, both fail and terminate the process. -/
theorem C18_c_assert_true_false (file : String) (line : Int) (value_expr : String) (v : Int) :
    (c_assert_true file line value_expr v = Outcome.returns true [] ↔ v = 1) ∧
    (c_assert_false file line value_expr v = Outcome.returns true [] ↔ v = 0) ∧
    (v ≠ 0 → v ≠ 1 →
      (∃ err, c_assert_true file line value_expr v = Outcome.exits 1 err ∧ err ≠ []) ∧
      (∃ err, c_assert_false file line value_expr v = Outcome.exits 1 err ∧ err ≠ [])) ∧
    (∃ err, c_assert_true file line "2" 2 = Outcome.exits 1 err ∧ err ≠ []) ∧
    (∃ err, c_assert_false file line "2" 2 = Outcome.exits 1 err ∧ err ≠ []) := by
  have tpass : v = 1 → c_assert_true file line value_expr v = Outcome.returns true [] :=
    fun h => c_assert_compare_pass _ _ _ _ _ _ _ _ _ (decide_eq_true h)
  have tfail : v ≠ 1 →
      ∃ err, c_assert_true file line value_expr v = Outcome.exits 1 err ∧ err ≠ [] :=
    fun h => c_assert_compare_fail _ _ _ _ _ _ _ _ _ (decide_eq_false h)
  have fpass : v = 0 → c_assert_false file line value_expr v = Outcome.returns true [] :=
    fun h => c_assert_compare_pass _ _ _ _ _ _ _ _ _ (decide_eq_true h)
  have ffail : v ≠ 0 →
      ∃ err, c_assert_false file line value_expr v = Outcome.exits 1 err ∧ err ≠ [] :=
    fun h => c_assert_compare_fail _ _ _ _ _ _ _ _ _ (decide_eq_false h)
  refine ⟨⟨?_, tpass⟩, ⟨?_, fpass⟩, fun h0 h1 => ⟨tfail h1, ffail h0⟩, ?_, ?_⟩
  · intro h
    by_contra hne
    obtain ⟨err, e1, _⟩ := tfail hne
    rw [e1] at h
    cases h
  · intro h
    by_contra hne
    obtain ⟨err, e1, _⟩ := ffail hne
    rw [e1] at h
    cases h
  · exact c_assert_compare_fail _ _ _ _ _ _ _ _ _ (by decide)
  · exact c_assert_compare_fail _ _ _ _ _ _ _ _ _ (by decide)

/-- Witness of C18 at `v = 2`: neither `c_assert_true(2)` nor `c_assert_false(2)` passes. -/
theorem C18_c_assert_true_false_witness :
    (∃ err, c_assert_true "test.c" 10 "2" 2 = Outcome.exits 1 err ∧ err ≠ []) ∧
    (∃ err, c_assert_false "test.c" 10 "2" 2 = Outcome.exits 1 err ∧ err ≠ []) :=
  (C18_c_assert_true_false "test.c" 10 "2" 2).2.2.1 (by decide) (by decide)

/-! ## The packing layout -/

theorem bit_at_eq_spec (ctx : GameContext) (n : Nat) (hn : n < 1008) :
    bit_at ctx n = spec_grid_bit ctx.cells n := by
  have hk : n / 8 < 126 := by omega
  unfold bit_at spec_grid_bit
  rw [mem_eq, dif_pos hk, dif_pos hk]

theorem three_bits_eq (v : Nat) (hv : v < 8) :
    v = (Nat.testBit v 0).toNat + 2 * (Nat.testBit v 1).toNat
      + 4 * (Nat.testBit v 2).toNat := by
  interval_cases v <;> rfl

theorem cell_value_eq_spec (ctx : GameContext) (i : Nat) (hi : i < 336) :
    cell_value ctx i = spec_cell ctx.cells i := by
  have h := three_bits_eq (cell_value ctx i) (cell_value_lt ctx i)
  rw [testBit_cell_value, testBit_cell_value, testBit_cell_value] at h
  simp only [show (0 : Nat) < 3 from by decide, show (1 : Nat) < 3 from by decide,
    show (2 : Nat) < 3 from by decide, decide_True, Bool.true_and, Nat.add_zero] at h
  rw [bit_at_eq_spec ctx _ (by omega), bit_at_eq_spec ctx _ (by omega),
    bit_at_eq_spec ctx _ (by omega)] at h
  exact h

/-- C15: packing layout. For every grid buffer and every in-bounds `(x, y)`, with
`i = x + 24*y`, `cell_at(x, y)` equals the 3-bit number whose bits, least significant
first, are bits `3i`, `3i+1`, `3i+2` of the buffer read as a bit string in which bit `k` is
bit `k mod 8` of byte `floor(k/8)`; these bits lie inside the 126 bytes, and the fields of
two different in-bounds cells are disjoint. -/
theorem C15_packing_layout (ctx : GameContext) (x y : Int)
    (hx0 : 0 ≤ x) (hx : x < 24) (hy0 : 0 ≤ y) (hy : y < 14) :
    cell_at ctx x y = some (spec_cell ctx.cells (x + 24 * y).toNat) ∧
      3 * (x + 24 * y).toNat + 2 < 8 * 126 ∧
      ∀ x1 y1 : Int, 0 ≤ x1 → x1 < 24 → 0 ≤ y1 → y1 < 14 → ¬ (x1 = x ∧ y1 = y) →
        ∀ a b : Nat, a < 3 → b < 3 →
          3 * (x + 24 * y).toNat + a ≠ 3 * (x1 + 24 * y1).toNat + b := by
  have hi := cell_index_lt x y hx0 hx hy0 hy
  refine ⟨?_, ?_, ?_⟩
  · rw [cell_at_eq ctx x y hx0 hx hy0 hy, cell_value_eq_spec ctx _ hi]
    rfl
  · unfold cell_index at hi
    omega
  · intro x1 y1 hx10 hx1 hy10 hy1 hne a b ha hb
    omega

/-- Witness of C15 at cell `(2, 0)` of `sample_ctx`, whose field spans bytes 0 and 1. -/
theorem C15_packing_layout_witness :
    cell_at sample_ctx 2 0 = some (spec_cell sample_ctx.cells 2) :=
  (C15_packing_layout sample_ctx 2 0 (by decide) (by decide) (by decide) (by decide)).1

/-! ## The window of the last two cells, and play from the initial state -/

/-- C14 (as the code behaves): `cells` has `(24*14*3)/8 = 126` bytes, and for the in-bounds
cells `(22, 13)` and `(23, 13)` the two-byte window starts at offset 125, so its second
byte is at offset 126, the first byte past `cells`: the byte of `player_xpos`. For every
other in-bounds cell both bytes of the window lie inside `cells`. -/
theorem C14_window_past_cells :
    CELLS_LEN = 126 ∧ CELLS_LEN * 8 = 24 * 14 * 3 ∧
      window_pos 23 13 = 125 ∧ window_pos 22 13 = 125 ∧
      ¬ (window_pos 23 13 + 1 < CELLS_LEN) ∧ ¬ (window_pos 22 13 + 1 < CELLS_LEN) ∧
      (∀ ctx : GameContext,
        load_byte ctx (window_pos 23 13 + 1) = some (byte_of_char ctx.player_xpos)) ∧
      (∀ ctx : GameContext,
        load_range ctx (window_pos 23 13) =
          some ((ctx.cells 125).val + 256 * (byte_of_char ctx.player_xpos).val)) ∧
      (∀ (x : Fin 24) (y : Fin 14),
        window_pos (x.val : Int) (y.val : Int) + 1 < CELLS_LEN ↔
          ¬ (y.val = 13 ∧ (x.val = 22 ∨ x.val = 23))) := by
  refine ⟨rfl, rfl, rfl, rfl, by decide, by decide, fun _ => rfl, fun _ => rfl, ?_⟩
  decide

theorem reachable_lone (s : GameContext) (h : Reachable s) :
    pos_ok s ∧ lone_player s s.player_xpos s.player_ypos ∧
      ∃ d : Direction, s.next_dir = d.code := by
  have hinit : pos_ok initial_ctx ∧
      lone_player initial_ctx initial_ctx.player_xpos initial_ctx.player_ypos ∧
      ∃ d : Direction, initial_ctx.next_dir = d.code :=
    ⟨by decide, ⟨rfl, rfl, initial_ctx_cells⟩, Direction.DIR_RIGHT, rfl⟩
  induction h with
  | init ctx s e =>
    rw [game_initialize_eq, Option.some.injEq] at e
    subst e
    exact hinit
  | step s s1 _ e ih =>
    obtain ⟨⟨p1, p2, p3, p4⟩, hl, d, hd⟩ := ih
    obtain ⟨s2, e2, hl2, hd2⟩ := lone_player_step s d _ _ p1 p2 p3 p4 hl hd
    rw [e2, Option.some.injEq] at e
    subst e
    obtain ⟨ex, ey, hc⟩ := hl2
    refine ⟨?_, ⟨rfl, rfl, ?_⟩, d, hd2⟩
    · unfold pos_ok
      rw [ex, ey]
      omega
    · rw [ex, ey]
      exact hc
  | redir s d _ ih =>
    obtain ⟨hp, ⟨_, _, hc⟩, _⟩ := ih
    refine ⟨hp, ⟨rfl, rfl, ?_⟩, d, to_char_code d⟩
    intro x y hx0 hx hy0 hy
    rw [cell_at_congr s (player_redir s d) rfl x y hx0 hx hy0 hy]
    exact hc x y hx0 hx hy0 hy
  | restart s s1 _ e _ =>
    rw [game_initialize_eq, Option.some.injEq] at e
    subst e
    exact hinit

theorem reachable_initial : Reachable initial_ctx :=
  Reachable.init zero_ctx initial_ctx (game_initialize_eq zero_ctx)

/-- C16: single-occupant invariant. In every state reachable from `game_initialize` by any
finite sequence of `game_step`, `player_redir` and `game_initialize` calls, the player is
in bounds, the cell at `(player_xpos, player_ypos)` holds `CELL_PLAYER` and every other
in-bounds cell holds `CELL_EMPTY`: exactly one in-bounds cell is non-empty. -/
theorem C16_single_occupant (s : GameContext) (h : Reachable s) :
    pos_ok s ∧ cell_at s s.player_xpos s.player_ypos = some CELL_PLAYER ∧
      (∀ x y : Int, 0 ≤ x → x < 24 → 0 ≤ y → y < 14 →
        ¬ (x = s.player_xpos ∧ y = s.player_ypos) → cell_at s x y = some CELL_EMPTY) ∧
      CELL_PLAYER ≠ CELL_EMPTY := by
  obtain ⟨hp, ⟨_, _, hc⟩, _⟩ := reachable_lone s h
  obtain ⟨p1, p2, p3, p4⟩ := hp
  refine ⟨⟨p1, p2, p3, p4⟩, ?_, ?_, by decide⟩
  · rw [hc _ _ p1 p2 p3 p4, if_pos ⟨rfl, rfl⟩]
  · intro x y hx0 hx hy0 hy hne
    rw [hc x y hx0 hx hy0 hy, if_neg hne]

/-- Witness of C16 at the state after `game_initialize`. -/
theorem C16_single_occupant_witness :
    Reachable initial_ctx ∧ pos_ok initial_ctx ∧
      cell_at initial_ctx initial_ctx.player_xpos initial_ctx.player_ypos =
        some CELL_PLAYER :=
  ⟨reachable_initial, (C16_single_occupant initial_ctx reachable_initial).1,
    (C16_single_occupant initial_ctx reachable_initial).2.1⟩

/-- C17: the collision branch is never taken in play. For every state reachable from
`game_initialize` by any finite sequence of `game_step`, `player_redir` (with one of the
four directions) and `game_initialize` calls, the cell `game_step` reads at the
moved-and-wrapped position is `CELL_EMPTY`, and `game_step` returns the moved state: the
player at that position, a different cell from the one it left, with `next_dir` kept. -/
theorem C17_collision_branch_not_taken (s : GameContext) (h : Reachable s) :
    cell_at (wrap_player (move_player s)) (wrap_player (move_player s)).player_xpos
        (wrap_player (move_player s)).player_ypos = some CELL_EMPTY ∧
      ¬ (s.player_xpos = (wrap_player (move_player s)).player_xpos ∧
        s.player_ypos = (wrap_player (move_player s)).player_ypos) ∧
      ∃ s1, game_step s = some s1 ∧
        s1.player_xpos = (wrap_player (move_player s)).player_xpos ∧
        s1.player_ypos = (wrap_player (move_player s)).player_ypos ∧
        s1.next_dir = s.next_dir ∧
        cell_at s1 s.player_xpos s.player_ypos = some CELL_EMPTY ∧
        cell_at s1 s1.player_xpos s1.player_ypos = some CELL_PLAYER := by
  obtain ⟨hp, ⟨_, _, hc⟩, d, hd⟩ := reachable_lone s h
  obtain ⟨wx, wy⟩ := wrap_move_target s d hp hd
  obtain ⟨t1, t2, t3, t4⟩ := spec_target_in_bounds s d
  have hne := spec_target_ne s d hp
  have hempty : cell_at s (spec_target_x s d) (spec_target_y s d) = some CELL_EMPTY := by
    rw [hc _ _ t1 t2 t3 t4, if_neg]
    intro hh
    exact hne ⟨hh.1.symm, hh.2.symm⟩
  obtain ⟨s1, e, h1, h2, h3, h4, h5, _⟩ := game_step_no_collision s d hp hd hempty
  rw [wx, wy]
  refine ⟨?_, hne, s1, e, h3, h4, h5, h1, ?_⟩
  · rw [cell_at_congr s (wrap_player (move_player s)) (wrap_move_frame s).1 _ _ t1 t2 t3 t4]
    exact hempty
  · rw [h3, h4]
    exact h2

/-- Witness of C17 at the state after `game_initialize`: the cell read is `(13, 7)`. -/
theorem C17_collision_branch_not_taken_witness :
    Reachable initial_ctx ∧ cell_at initial_ctx 13 7 = some CELL_EMPTY :=
  ⟨reachable_initial, (C17_collision_branch_not_taken initial_ctx reachable_initial).1⟩

end Boil
